import Mathlib

/-!
# CopyQ clipboard server: command dispatch and monitor supervision

A shallow embedding of `src/clipboardserver.cpp`.  Strings and byte arrays
are lists of characters, the collaborators (main window, clipboard browser,
worker process, sockets) are represented by the sequence of calls the server
issues to them, and the answers of the outside world (worker process state,
start-up success, browser contents) are explicit inputs.
-/

namespace CopyQ

/-- Text and byte arrays (`QString`, `QByteArray`) as character lists. -/
abbrev Str := List Char

/-! ## Qt string helpers used by `doCommand` -/

/-- Decimal value of an ASCII digit, as `QChar::digitValue`. -/
def digitValue (c : Char) : Option Nat :=
  if '0' ≤ c ∧ c ≤ '9' then some (c.toNat - '0'.toNat) else none

/-- Decimal text of an integer, as `QString::number`. -/
def number (n : Int) : Str :=
  match n with
  | Int.ofNat k => Nat.toDigits 10 k
  | Int.negSucc k => '-' :: Nat.toDigits 10 (k + 1)

/-- Lowest place marker of a format, the scan of `QString::arg`
(`findArgEscapes`): a marker is `%`, an optional `L`, then one or two
digits.  `best` is the lowest number seen so far. -/
def minEscape : Str → Option Nat → Option Nat
  | [], best => best
  | c :: rest, best =>
    if c = '%' then
      let afterL := match rest with
        | 'L' :: r => r
        | r => r
      match afterL with
      | d1 :: r1 =>
        match digitValue d1 with
        | none => minEscape rest best
        | some v1 =>
          let v := match r1 with
            | d2 :: _ => match digitValue d2 with
              | some v2 => 10 * v1 + v2
              | none => v1
            | [] => v1
          match best with
          | none => minEscape rest (some v)
          | some b => minEscape rest (some (min b v))
      | [] => best
    else minEscape rest best

/-- Replacement pass of `QString::arg` (`replaceArgEscapes`): every marker
whose number is `m` is replaced by `a`, all other text is kept.  The fuel
bounds the number of steps and `s.length + 1` is always enough. -/
def replaceEscapes (m : Nat) (a : Str) : Nat → Str → Str
  | 0, s => s
  | _ + 1, [] => []
  | fuel + 1, c :: rest =>
    if c = '%' then
      let skipL : Nat := match rest with
        | 'L' :: _ => 1
        | _ => 0
      match rest.drop skipL with
      | d1 :: r1 =>
        match digitValue d1 with
        | none => c :: replaceEscapes m a fuel rest
        | some v1 =>
          match r1 with
          | d2 :: r2 =>
            match digitValue d2 with
            | some v2 =>
              if 10 * v1 + v2 = m then a ++ replaceEscapes m a fuel r2
              else c :: replaceEscapes m a fuel rest
            | none =>
              if v1 = m then a ++ replaceEscapes m a fuel r1
              else c :: replaceEscapes m a fuel rest
          | [] =>
            if v1 = m then a else c :: replaceEscapes m a fuel rest
      | [] => c :: replaceEscapes m a fuel rest
    else c :: replaceEscapes m a fuel rest

/-- The call `fmt.arg(a)` of `QString::arg(const QString &)`: the
lowest-numbered place marker of `fmt` is replaced by `a` at all its
occurrences; a format without marker is returned unchanged.  Markers use
ASCII digits, and a `%L` marker receives the same text as a plain one. -/
def qarg (fmt a : Str) : Str :=
  match minEscape fmt none with
  | none => fmt
  | some m => replaceEscapes m a (fmt.length + 1) fmt

/-- The expression `fmt.arg(text).arg(row)` of the `list` command. -/
def instantiate (fmt text : Str) (row : Int) : Str :=
  qarg (qarg fmt text) (number row)

/-- The call `fmt.replace(QString("\\n"), QString('\n'))`: every escaped
newline (a backslash followed by `n`) becomes a newline character. -/
def unescapeNewline : Str → Str
  | [] => []
  | [c] => [c]
  | c :: d :: rest =>
    if c = '\\' ∧ d = 'n' then '\n' :: unescapeNewline rest
    else c :: unescapeNewline (d :: rest)

/-! ## The argument cursor (`Arguments`, from `arguments.h`) -/

/-- Value of a non-empty run of decimal digits. -/
def parseDigits : Str → Option Nat → Option Nat
  | [], acc => acc
  | c :: rest, acc =>
    match digitValue c with
    | none => none
    | some d =>
      match acc with
      | none => parseDigits rest (some d)
      | some n => parseDigits rest (some (10 * n + d))

/-- Modelled from the spec: the integer reading of a token, which belongs to
the `Arguments` class and is not part of the sources.  The spec only says
"parseable as an integer"; this is a decimal numeral with an optional sign
that fits a 32-bit `int`. -/
def parseInt (t : Str) : Option Int :=
  match t with
  | '-' :: ds =>
    match parseDigits ds none with
    | some n => if n ≤ 2147483648 then some (-(n : Int)) else none
    | none => none
  | '+' :: ds =>
    match parseDigits ds none with
    | some n => if n ≤ 2147483647 then some (n : Int) else none
    | none => none
  | ds =>
    match parseDigits ds none with
    | some n => if n ≤ 2147483647 then some (n : Int) else none
    | none => none

/-- Modelled from the spec: the `Arguments` cursor of `arguments.h`, which is
not part of the sources.  It holds the tokens already read (`consumed`, the
last one read first), the tokens still to read (`rest`), and the error flag
tested by `args.error()`. -/
structure Arguments where
  consumed : List Str
  rest : List Str
  error : Bool

namespace Arguments

/-- Modelled from the spec: the cursor over a freshly decoded request
(`Arguments args(msg)`), positioned on token 0 with no error. -/
def ofTokens (ts : List Str) : Arguments := ⟨[], ts, false⟩

/-- Modelled from the spec: `atEnd` of `Arguments`, "no tokens left". -/
def atEnd (a : Arguments) : Bool := a.rest.isEmpty

/-- Modelled from the spec: `finished` of `Arguments`, "no tokens left,
tolerating a trailing optional group" (a default that was used in place of a
missing token does not count against it). -/
def finished (a : Arguments) : Bool := a.rest.isEmpty

/-- Modelled from the spec: "read-next-token" of `Arguments`
(`args >> string`, `args >> bytes`, `args.toString()`).  A missing token
sets the error flag. -/
def next (a : Arguments) : Str × Arguments :=
  match a.rest with
  | t :: ts => (t, { a with consumed := t :: a.consumed, rest := ts })
  | [] => ([], { a with error := true })

/-- Modelled from the spec: reading a string with a default
(`args >> QString(d) >> s`) of `Arguments`: the default stands in for a
missing token. -/
def nextD (d : Str) (a : Arguments) : Str × Arguments :=
  match a.rest with
  | t :: ts => (t, { a with consumed := t :: a.consumed, rest := ts })
  | [] => (d, a)

/-- Modelled from the spec: reading an integer without default
(`args >> row`) of `Arguments`.  A missing token sets the error flag; a
token that is no integer is consumed and sets the error flag, so that the
"rewind-one-token" that the callers perform next puts the cursor back on it. -/
def readInt (a : Arguments) : Int × Arguments :=
  match a.rest with
  | t :: ts =>
    match parseInt t with
    | some n => (n, { a with consumed := t :: a.consumed, rest := ts })
    | none => (0, { consumed := t :: a.consumed, rest := ts, error := true })
  | [] => (0, { a with error := true })

/-- Modelled from the spec: "read-integer-with-default" of `Arguments`
(`args >> d >> row`): "returns a supplied default if the next token is
absent or not parseable as an integer, and in the not parseable case pushes
the token back so it can be re-read as a different type". -/
def readIntD (d : Int) (a : Arguments) : Int × Arguments :=
  match a.rest with
  | t :: ts =>
    match parseInt t with
    | some n => (n, { a with consumed := t :: a.consumed, rest := ts })
    | none => (d, a)
  | [] => (d, a)

/-- Modelled from the spec: "rewind-one-token" of `Arguments`
(`args.back()`): the cursor steps back by one token (if one was read) and
the error of the failed read is cleared. -/
def back (a : Arguments) : Arguments :=
  match a.consumed with
  | t :: cs => { consumed := cs, rest := t :: a.rest, error := false }
  | [] => { a with error := false }

end Arguments

/-! ## Collaborators -/

/-- Content of a `QMimeData`: the stored (MIME type, bytes) entries. -/
abbrev MimeData := List (Str × Str)

/-- The call `data->setData(mime, bytes)` of `QMimeData`: an entry already
stored for `mime` is replaced. -/
def setData (data : MimeData) (mime bytes : Str) : MimeData :=
  data.filter (fun e => decide (e.1 ≠ mime)) ++ [(mime, bytes)]

/-- The MIME types an item offers (`QMimeData::formats`). -/
def formats (data : MimeData) : List Str := data.map Prod.fst

/-- The call `data(mime)` of `QMimeData`: the bytes stored for `mime`, empty
when there are none. -/
def mimeBytes (data : MimeData) (mime : Str) : Str :=
  match data.find? (fun e => decide (e.1 = mime)) with
  | some e => e.2
  | none => []

/-- Severity passed to `log`. -/
inductive LogLevel where
  | LogNote
  | LogError
  deriving DecidableEq

/-- State reported by `QProcess::state()`. -/
inductive ProcessState where
  | NotRunning
  | Starting
  | Running
  deriving DecidableEq

/-- Calls the server issues to its collaborators: the main window, the
clipboard browser (the history), the application object, the worker process
and the sockets.  Processes and sockets are named by a number. -/
inductive Call where
  | toggleVisible
  | showMenu
  | showError (msg : Str)
  | openActionDialog (row : Int)
  | action (row : Int) (cmd sep : Str) (input output wait : Bool)
  | setCurrent (row : Int) (extend : Bool)
  | setAutoUpdate (enable : Bool)
  | addText (text : Str)
  | addData (data : MimeData)
  | updateClipboard
  | openEditor
  | moveToClipboard (row : Int)
  | remove
  | exit (code : Int)
  | log (msg : Str) (level : LogLevel)
  | processNew (p : Nat)
  | processStart (p : Nat) (arguments : List Str)
  | processWaitForStarted (p : Nat) (msecs : Nat)
  | processDisconnect (p : Nat)
  | processWaitForFinished (p : Nat) (msecs : Nat)
  | processTerminate (p : Nat)
  | processKill (p : Nat)
  | processDeleteLater (p : Nat)
  | processDelete (p : Nat)
  | socketDisconnect (sock : Nat)
  | socketDeleteLater (sock : Nat)
  | socketWrite (sock : Nat) (bytes : List Nat)
  | clientWrite (bytes : List Nat)
  deriving DecidableEq

/-- What the clipboard browser answers to the queries of `doCommand`
(`length`, `itemText`, `itemData(row)->data(mime)`), together with its
auto-update flag. -/
structure Browser where
  length : Nat
  itemText : Int → Str
  itemData : Int → Str → Str
  autoUpdate : Bool

/-- The fields of `ClipboardServer` and its surroundings: the worker process
handle `m_monitor`, the monitor connection `m_socket`, the browser of the
main window, the number the next created object gets, and the calls issued
so far (oldest first). -/
structure ClipboardServer where
  m_monitor : Option Nat
  m_socket : Option Nat
  browser : Browser
  nextId : Nat
  calls : List Call

namespace ClipboardServer

/-- Record one call to a collaborator. -/
def call (s : ClipboardServer) (c : Call) : ClipboardServer :=
  { s with calls := s.calls ++ [c] }

/-- The call `c->setAutoUpdate(enable)`: recorded, and the flag takes the value. -/
def setAutoUpdate (s : ClipboardServer) (enable : Bool) : ClipboardServer :=
  { s with browser := { s.browser with autoUpdate := enable },
           calls := s.calls ++ [Call.setAutoUpdate enable] }

/-- Modelled from the spec: `isMonitoring()` of `clipboardserver.h`, which is
not part of the sources: the supervisor holds a worker process handle. -/
def isMonitoring (s : ClipboardServer) : Bool := s.m_monitor.isSome

end ClipboardServer

/-- Commands of the client protocol (`enum Command`). -/
inductive Command where
  | Cmd_Unknown
  | Cmd_Toggle
  | Cmd_Exit
  | Cmd_Menu
  | Cmd_Action
  | Cmd_Add
  | Cmd_Write
  | Cmd_WriteNoUpdate
  | Cmd_Edit
  | Cmd_Select
  | Cmd_Remove
  | Cmd_Length
  | Cmd_List
  | Cmd_Read
  deriving DecidableEq

/-- The table `m_commands` filled by the constructor. -/
def m_commands : List (Str × Command) :=
  [ ("toggle".toList, Command.Cmd_Toggle),
    ("exit".toList, Command.Cmd_Exit),
    ("menu".toList, Command.Cmd_Menu),
    ("action".toList, Command.Cmd_Action),
    ("add".toList, Command.Cmd_Add),
    ("write".toList, Command.Cmd_Write),
    ("_write".toList, Command.Cmd_WriteNoUpdate),
    ("edit".toList, Command.Cmd_Edit),
    ("select".toList, Command.Cmd_Select),
    ("remove".toList, Command.Cmd_Remove),
    ("length".toList, Command.Cmd_Length),
    ("size".toList, Command.Cmd_Length),
    ("count".toList, Command.Cmd_Length),
    ("list".toList, Command.Cmd_List),
    ("read".toList, Command.Cmd_Read) ]

/-- The lookup `m_commands.value(cmd, Cmd_Unknown)`. -/
def commandOf (cmd : Str) : Command :=
  match m_commands.find? (fun e => decide (e.1 = cmd)) with
  | some e => e.2
  | none => Command.Cmd_Unknown

/-! ## `ClipboardServer::doCommand`

Every loop of `doCommand` carries a step budget; `none` is returned only
when the budget is used up, and `doCommand` hands each loop one step more
than there are tokens. -/

/-- The loop of `Cmd_Action` that extends the selection:
`while ( !args.finished() ) { args >> row; if (args.error()) break; ... }`. -/
def actionRows : Nat → Arguments → ClipboardServer → Option (Arguments × ClipboardServer)
  | 0, _, _ => none
  | fuel + 1, args, s =>
    if args.finished then some (args, s)
    else
      let r := args.readInt
      if r.2.error then some (r.2, s)
      else actionRows fuel r.2 (s.call (Call.setCurrent r.1 true))

/-- The loop of `Cmd_Edit` and `Cmd_Remove`:
`while ( !args.finished() ) { args >> row; if ( args.error() ) return false; ... }`.
The flag is `false` when the loop left through `return false`. -/
def selectRows : Nat → Arguments → ClipboardServer → Option (Bool × Arguments × ClipboardServer)
  | 0, _, _ => none
  | fuel + 1, args, s =>
    if args.finished then some (true, args, s)
    else
      let r := args.readInt
      if r.2.error then some (false, r.2, s)
      else selectRows fuel r.2 (s.call (Call.setCurrent r.1 true))

/-- The loop of `Cmd_Add`: `while( !args.atEnd() ) c->add( args.toString() )`. -/
def addLoop : Nat → Arguments → ClipboardServer → Option (Arguments × ClipboardServer)
  | 0, _, _ => none
  | fuel + 1, args, s =>
    if args.atEnd then some (args, s)
    else
      let r := args.next
      addLoop fuel r.2 (s.call (Call.addText r.1))

/-- The loop of `Cmd_Write` and `Cmd_WriteNoUpdate`:
`do { args >> mime >> bytes; if ( args.error() ) return false; data->setData(mime, bytes); } while ( !args.atEnd() )`.
The result is `none` inside when the loop left through `return false`. -/
def writeLoop : Nat → Arguments → MimeData → Option (Option MimeData × Arguments)
  | 0, _, _ => none
  | fuel + 1, args, data =>
    let m := args.next
    let b := m.2.next
    if b.2.error then some (none, b.2)
    else
      let data := setData data m.1 b.1
      if !b.2.atEnd then writeLoop fuel b.2 data
      else some (some data, b.2)

/-- The loop of `Cmd_List`:
`do { args >> row; if ( args.error() ) { args.back(); args >> fmt; args >> 0 >> row; fmt.replace(...); } else { response.append( fmt.arg( c->itemText(row) ).arg(row) ); } } while( !args.atEnd() )`. -/
def listLoop (c : Browser) : Nat → Arguments → Str → Str → Option (Arguments × Str)
  | 0, _, _, _ => none
  | fuel + 1, args, fmt, response =>
    let r := args.readInt
    if r.2.error then
      let args := r.2.back
      let f := args.next
      let d := f.2.readIntD 0
      let fmt := unescapeNewline f.1
      if !d.2.atEnd then listLoop c fuel d.2 fmt response
      else some (d.2, response)
    else
      let response := response ++ instantiate fmt (c.itemText r.1) r.1
      if !r.2.atEnd then listLoop c fuel r.2 fmt response
      else some (r.2, response)

/-- The loop of `Cmd_Read`:
`do { args >> row; if ( args.error() ) { args.back(); args >> mime; args >> 0 >> row; } response.append( c->itemData(row)->data(mime) ); } while( !args.atEnd() )`. -/
def readLoop (c : Browser) : Nat → Arguments → Str → Str → Option (Arguments × Str)
  | 0, _, _, _ => none
  | fuel + 1, args, mime, response =>
    let r := args.readInt
    if r.2.error then
      let args := r.2.back
      let m := args.next
      let d := m.2.readIntD 0
      let response := response ++ c.itemData d.1 m.1
      if !d.2.atEnd then readLoop c fuel d.2 m.1 response
      else some (d.2, response)
    else
      let response := response ++ c.itemData r.1 mime
      if !r.2.atEnd then readLoop c fuel r.2 mime response
      else some (r.2, response)

/-- The body shared by `Cmd_WriteNoUpdate` and `Cmd_Write` (the first falls
through into the second with `noupdate = true`). -/
def doWrite (noupdate : Bool) (s : ClipboardServer) (args : Arguments) (response : Str) :
    Option (Bool × Str × ClipboardServer) :=
  match writeLoop (args.rest.length + 1) args [] with
  | none => none
  | some (none, _) => some (false, response, s)
  | some (some data, _) =>
    let s := if noupdate && s.isMonitoring then s.setAutoUpdate false else s
    let s := s.call (Call.addData data)
    let s := if noupdate && s.isMonitoring then s.setAutoUpdate true else s
    some (true, response, s)

/-- The function `ClipboardServer::doCommand(Arguments &args, QByteArray &response)`:
the result holds the returned flag, the response buffer and the server
afterwards. -/
def doCommand (s : ClipboardServer) (args : Arguments) (response : Str) :
    Option (Bool × Str × ClipboardServer) :=
  let fuel := args.rest.length + 1
  let cmd := args.next
  let args := cmd.2
  if args.error then some (false, response, s)
  else
    match commandOf cmd.1 with
    | Command.Cmd_Toggle =>
      if !args.atEnd then some (false, response, s)
      else some (true, response, s.call Call.toggleVisible)
    | Command.Cmd_Exit =>
      if !args.atEnd then some (false, response, s)
      else some (true, "Terminating server.\n".toList, s.call (Call.exit 0))
    | Command.Cmd_Menu =>
      if !args.atEnd then some (false, response, s)
      else some (true, response, s.call Call.showMenu)
    | Command.Cmd_Action =>
      let r := args.readIntD 0
      let s := s.call (Call.setCurrent r.1 false)
      match actionRows fuel r.2 s with
      | none => none
      | some (args, s) =>
        if !args.error then some (true, response, s.call (Call.openActionDialog (-1)))
        else
          let args := args.back
          let cmd := args.next
          let sep := cmd.2.nextD "\n".toList
          if !sep.2.finished then some (false, response, s)
          else some (true, response, s.call (Call.action (-1) cmd.1 sep.1 true true false))
    | Command.Cmd_Add =>
      if args.atEnd then some (false, response, s)
      else
        let s := if s.isMonitoring then s.setAutoUpdate false else s
        match addLoop fuel args s with
        | none => none
        | some (_, s) =>
          let s := if s.isMonitoring then s.setAutoUpdate true else s
          some (true, response, s.call Call.updateClipboard)
    | Command.Cmd_WriteNoUpdate => doWrite true s args response
    | Command.Cmd_Write => doWrite false s args response
    | Command.Cmd_Edit =>
      let r := args.readIntD 0
      let s := s.call (Call.setCurrent r.1 false)
      match selectRows fuel r.2 s with
      | none => none
      | some (false, _, s) => some (false, response, s)
      | some (true, _, s) => some (true, response, s.call Call.openEditor)
    | Command.Cmd_Select =>
      let r := args.readIntD 0
      if !r.2.finished then some (false, response, s)
      else some (true, response, s.call (Call.moveToClipboard r.1))
    | Command.Cmd_Remove =>
      let r := args.readIntD 0
      let s := s.call (Call.setCurrent r.1 false)
      match selectRows fuel r.2 s with
      | none => none
      | some (false, _, s) => some (false, response, s)
      | some (true, _, s) => some (true, response, s.call Call.remove)
    | Command.Cmd_Length =>
      if args.finished then
        some (true, qarg "%1\n".toList (number s.browser.length), s)
      else some (false, response, s)
    | Command.Cmd_List =>
      if args.finished then some (true, s.browser.itemText 0 ++ ['\n'], s)
      else
        match listLoop s.browser fuel args "%1\n".toList response with
        | none => none
        | some (_, response) => some (true, response, s)
    | Command.Cmd_Read =>
      if args.atEnd then some (true, s.browser.itemData 0 "text/plain".toList, s)
      else
        match readLoop s.browser fuel args "text/plain".toList response with
        | none => none
        | some (_, response) => some (true, response, s)
    | Command.Cmd_Unknown => some (false, response, s)

/-! ## Answering a client: `sendMessage` and `newConnection` -/

/-- The four bytes `QDataStream` writes for a `quint32` (big-endian, the
stream default). -/
def quint32 (n : Int) : List Nat :=
  let v := (n % 4294967296).toNat
  [v / 16777216 % 256, v / 65536 % 256, v / 256 % 256, v % 256]

/-- What `QDataStream` writes for `out << bytes` with a (non-null)
`QByteArray`: its size as a `quint32`, then the bytes themselves. -/
def writeByteArray (bytes : Str) : List Nat :=
  quint32 (bytes.length : Int) ++ bytes.map Char.toNat

/-- The function `ClipboardServer::sendMessage(client, message, exit_code)`;
`qCompress` is the parameter `compress`.  The bytes handed to
`client->write` are recorded. -/
def sendMessage (compress : Str → Str) (s : ClipboardServer) (message : Str)
    (exit_code : Int) : ClipboardServer :=
  let zipped := compress message
  let bytes := quint32 exit_code ++ quint32 (zipped.length : Int) ++ writeByteArray zipped
  s.call (Call.clientWrite bytes)

/-- Modelled from the spec: the default value of the parameter `exit_code`
of `sendMessage`, declared in `clipboardserver.h` which is not part of the
sources ("exit code defaults to 0"). -/
def defaultExitCode : Int := 0

/-- The text `tr("Bad command syntax. Use -h for help.\n")`. -/
def badSyntaxMessage : Str := "Bad command syntax. Use -h for help.\n".toList

/-- The slot `ClipboardServer::newConnection()`.  The request is the token
list that `readBytes` and `Arguments args(msg)` deliver, or `none` when
`readBytes` fails and the connection is dropped without an answer. -/
def newConnection (compress : Str → Str) (s : ClipboardServer)
    (request : Option (List Str)) : ClipboardServer :=
  match request with
  | none => s
  | some tokens =>
    match doCommand s (Arguments.ofTokens tokens) [] with
    | none => s
    | some (false, _, s) => sendMessage compress s badSyntaxMessage 2
    | some (true, client_msg, s) => sendMessage compress s client_msg defaultExitCode

/-! ## Supervision of the worker process -/

/-- Steps of the shutdown that reach the worker process. -/
inductive Signal where
  | connectionClosed
  | terminated
  | killed
  deriving DecidableEq

/-- Behaviour of a worker process during shutdown: the state that
`m_monitor->state()` reports once the given steps have been applied to it
(and waited on), the empty list being the state on entry. -/
abbrev Worker := List Signal → ProcessState

/-- The block `if (m_socket) { ... }` of `stopMonitoring`: the monitor
connection is closed, which is the worker's cue to exit, and the worker is
waited on.  The result lists the steps applied to the worker so far. -/
def closeConnection (p : Nat) (s : ClipboardServer) : ClipboardServer × List Signal :=
  match s.m_socket with
  | some sock =>
    let s := s.call (Call.socketDisconnect sock)
    let s := s.call (Call.socketDeleteLater sock)
    let s := { s with m_socket := none }
    (s.call (Call.processWaitForFinished p 1000), [Signal.connectionClosed])
  | none => (s, [])

/-- The block `if ( m_monitor->state() != QProcess::NotRunning ) { ... }` of
`stopMonitoring`: close the connection, then terminate, then kill, each step
only while the worker is not `NotRunning`.  The result lists the steps
applied to the worker. -/
def shutdownWorker (w : Worker) (p : Nat) (s : ClipboardServer) :
    ClipboardServer × List Signal :=
  if w [] ≠ ProcessState.NotRunning then
    let s := s.call (Call.log "Clipboard Monitor: Terminating".toList LogLevel.LogNote)
    let r := closeConnection p s
    if w r.2 ≠ ProcessState.NotRunning then
      let s := r.1.call
        (Call.log "Clipboard Monitor: Command 'exit' unsucessful!".toList LogLevel.LogError)
      let s := s.call (Call.processTerminate p)
      let s := s.call (Call.processWaitForFinished p 1000)
      let sig := r.2 ++ [Signal.terminated]
      if w sig ≠ ProcessState.NotRunning then
        let s := s.call
          (Call.log "Clipboard Monitor: Cannot terminate process!".toList LogLevel.LogError)
        let s := s.call (Call.processKill p)
        let sig := sig ++ [Signal.killed]
        if w sig ≠ ProcessState.NotRunning then
          (s.call (Call.log "Clipboard Monitor: Cannot kill process!!!".toList
            LogLevel.LogError), sig)
        else (s, sig)
      else (s, sig)
    else r
  else (s, [])

/-- The body of `if (m_monitor) { ... }` of `stopMonitoring` for the held
handle `p`: the state-change signal is disconnected, the worker is shut
down, and the handle is released. -/
def releaseMonitor (w : Worker) (p : Nat) (s : ClipboardServer) : ClipboardServer :=
  let s := s.call (Call.processDisconnect p)
  let r := shutdownWorker w p s
  let s :=
    if w r.2 = ProcessState.NotRunning then
      r.1.call (Call.log "Clipboard Monitor: Terminated".toList LogLevel.LogNote)
    else r.1
  let s := s.call (Call.processDeleteLater p)
  { s with m_monitor := none }

/-- The function `ClipboardServer::stopMonitoring()`. -/
def stopMonitoring (w : Worker) (s : ClipboardServer) : ClipboardServer :=
  let s :=
    match s.m_monitor with
    | none => s
    | some p => releaseMonitor w p s
  s.setAutoUpdate false

/-- The function `ClipboardServer::startMonitoring()`.  `started` is the
result of `m_monitor->waitForStarted(2000)`.  After `delete m_monitor` the
field still holds the handle: the source does not reset it. -/
def startMonitoring (started : Bool) (s : ClipboardServer) : ClipboardServer :=
  match s.m_monitor with
  | none =>
    let p := s.nextId
    let s := { s with m_monitor := some p, nextId := p + 1 }
    let s := s.call (Call.processNew p)
    let s := s.call (Call.processStart p ["monitor".toList])
    let s := s.call (Call.processWaitForStarted p 2000)
    if !started then
      let s := s.call (Call.log "Cannot start clipboard monitor!".toList LogLevel.LogError)
      let s := s.call (Call.processDelete p)
      s.call (Call.exit 10)
    else s.setAutoUpdate true
  | some _ => s.setAutoUpdate true

/-- The slot `ClipboardServer::monitorStandardError()`; `stderrText` is what
`m_monitor->readAllStandardError()` returns. -/
def monitorStandardError (stderrText : Str) (s : ClipboardServer) : ClipboardServer :=
  s.call (Call.log ("Clipboard Monitor: ".toList ++ stderrText) LogLevel.LogError)

/-- The slot `ClipboardServer::monitorStateChanged(newState)`.  The inputs
are the worker's buffered diagnostic output, the behaviour of the old worker
during shutdown and whether the new worker starts in time. -/
def monitorStateChanged (newState : ProcessState) (stderrText : Str) (w : Worker)
    (started : Bool) (s : ClipboardServer) : ClipboardServer :=
  match newState with
  | ProcessState.NotRunning =>
    let s := monitorStandardError stderrText s
    let msg := "Clipboard monitor crashed!".toList
    let s := s.call (Call.log msg LogLevel.LogError)
    let s := s.call (Call.showError msg)
    let s := stopMonitoring w s
    startMonitoring started s
  | ProcessState.Starting =>
    s.call (Call.log "Clipboard Monitor: Starting".toList LogLevel.LogNote)
  | ProcessState.Running =>
    s.call (Call.log "Clipboard Monitor: Started".toList LogLevel.LogNote)

/-- The slot `ClipboardServer::newMonitorConnection()`; `sock` is the
connection returned by `nextPendingConnection`. -/
def newMonitorConnection (sock : Nat) (s : ClipboardServer) : ClipboardServer :=
  let s :=
    match s.m_socket with
    | some old => (s.call (Call.socketDisconnect old)).call (Call.socketDeleteLater old)
    | none => s
  { s with m_socket := some sock }

/-- The slot `ClipboardServer::readyRead()`.  `item` is the clipboard item
decoded from the frame, or `none` when `readBytes` fails. -/
def readyRead (item : Option MimeData) (w : Worker) (started : Bool)
    (s : ClipboardServer) : ClipboardServer :=
  match item with
  | none => startMonitoring started (stopMonitoring w s)
  | some data => s.call (Call.addData data)

/-- The slot `ClipboardServer::loadSettings()`. -/
def loadSettings (w : Worker) (started : Bool) (s : ClipboardServer) : ClipboardServer :=
  if s.isMonitoring then startMonitoring started (stopMonitoring w s) else s

/-! ## Requests of the `write` command -/

/-- The argument tokens of a `write` request that carries the given
(MIME type, bytes) pairs, in order. -/
def pairTokens : List (Str × Str) → List Str
  | [] => []
  | p :: ps => p.1 :: p.2 :: pairTokens ps

/-- The item that results from `setData` applied to the pairs in request
order, starting from an empty `QMimeData`. -/
def writtenItem (pairs : List (Str × Str)) : MimeData :=
  pairs.foldl (fun d p => setData d p.1 p.2) []

/-! ## Responses and calls as the specification states them -/

/-- The response of `read` as the specification states it: each row-index
token contributes the payload of that row under the most recent MIME-type
token before it (`mime` when there is none), and a MIME-type token that is
not immediately followed by a row index contributes the payload of row 0
under that type. -/
def readSpec (c : Browser) : Str → List Str → Str
  | _, [] => []
  | mime, t :: ts =>
    match parseInt t with
    | some row => c.itemData row mime ++ readSpec c mime ts
    | none =>
      (match ts with
        | [] => c.itemData 0 t
        | u :: _ => if (parseInt u).isSome then [] else c.itemData 0 t)
      ++ readSpec c t ts

/-- The row selection of `action`, `edit` and `remove` as the specification
states it: the first row (0 when none is given) sets the current row, every
further row extends the selection. -/
def selectionCalls : List Int → List Call
  | [] => [Call.setCurrent 0 false]
  | r :: rs => Call.setCurrent r false :: rs.map (fun x => Call.setCurrent x true)

/-- The calls of the block `if (m_socket) { ... }` of `stopMonitoring` for
the handle `p`: none when no connection is open. -/
def closeCalls (p : Nat) : Option Nat → List Call
  | some sock => [Call.socketDisconnect sock, Call.socketDeleteLater sock,
      Call.processWaitForFinished p 1000]
  | none => []

/-- The steps applied to the worker once the block `if (m_socket) { ... }`
of `stopMonitoring` is passed. -/
def closedSteps : Option Nat → List Signal
  | some _ => [Signal.connectionClosed]
  | none => []

/-! ## The auto-update invariant and the top-level operations -/

/-- The auto-update flag is on exactly when the supervisor holds a worker
process handle. -/
def autoUpdateInvariant (s : ClipboardServer) : Prop :=
  s.browser.autoUpdate = s.isMonitoring

/-- The top-level operations of the server: `stopMonitoring`,
`startMonitoring`, `monitorStateChanged`, `loadSettings`, `readyRead` with a
failed frame read, and `doCommand` on a request.  `started` tells whether the
worker that the operation starts, if it starts one, is up within the timeout. -/
inductive Operation where
  | stop (w : Worker)
  | start (started : Bool)
  | stateChanged (newState : ProcessState) (stderrText : Str) (w : Worker) (started : Bool)
  | settingsChanged (w : Worker) (started : Bool)
  | readFailed (w : Worker) (started : Bool)
  | command (tokens : List Str) (response : Str)

/-- The server after one top-level operation. -/
def Operation.run : Operation → ClipboardServer → ClipboardServer
  | Operation.stop w, s => stopMonitoring w s
  | Operation.start started, s => startMonitoring started s
  | Operation.stateChanged newState stderrText w started, s =>
    monitorStateChanged newState stderrText w started s
  | Operation.settingsChanged w started, s => loadSettings w started s
  | Operation.readFailed w started, s => readyRead none w started s
  | Operation.command tokens response, s =>
    match doCommand s (Arguments.ofTokens tokens) response with
    | some r => r.2.2
    | none => s

/-- No start of a worker times out in the operation. -/
def Operation.startsInTime : Operation → Bool
  | Operation.stop _ => true
  | Operation.start started => started
  | Operation.stateChanged _ _ _ started => started
  | Operation.settingsChanged _ started => started
  | Operation.readFailed _ started => started
  | Operation.command _ _ => true

/-! ## Sample data -/

/-- A browser over a plain-text history: row `i` holds `items[i]`. -/
def sampleBrowser (items : List Str) : Browser where
  length := items.length
  itemText := fun row => if row < 0 then [] else (items.get? row.toNat).getD []
  itemData := fun row mime =>
    if row < 0 ∨ mime ≠ "text/plain".toList then [] else (items.get? row.toNat).getD []
  autoUpdate := true

/-- A server that monitors worker `0` over connection `1`. -/
def sampleServer (items : List Str) : ClipboardServer :=
  ⟨some 0, some 1, sampleBrowser items, 2, []⟩

/-- A server without worker (the supervisor is idle). -/
def idleServer (items : List Str) : ClipboardServer :=
  ⟨none, none, { sampleBrowser items with autoUpdate := false }, 2, []⟩

/-- A worker that never reports `NotRunning`, whatever is done to it. -/
def stubbornWorker : Worker := fun _ => ProcessState.Running

/-- A worker that has crashed: it reports `NotRunning` from the start. -/
def crashedWorker : Worker := fun _ => ProcessState.NotRunning

/-- A worker that exits only once it is sent `terminate`. -/
def terminableWorker : Worker := fun steps =>
  if Signal.terminated ∈ steps then ProcessState.NotRunning else ProcessState.Running

/-- A history of five items `a` to `e`. -/
def fiveItems : List Str :=
  ["a".toList, "b".toList, "c".toList, "d".toList, "e".toList]

/-- The template `<%1> row=%2\n` as typed on the command line, the newline
escaped. -/
def sampleTemplate : Str := "<%1> row=%2\\n".toList

/-! ## Dispatch table -/

theorem commandOf_list : commandOf ['l', 'i', 's', 't'] = Command.Cmd_List := by decide

theorem commandOf_length : commandOf ['l', 'e', 'n', 'g', 't', 'h'] = Command.Cmd_Length := by
  decide

theorem commandOf_size : commandOf ['s', 'i', 'z', 'e'] = Command.Cmd_Length := by decide

theorem commandOf_count : commandOf ['c', 'o', 'u', 'n', 't'] = Command.Cmd_Length := by decide

theorem commandOf_write : commandOf ['w', 'r', 'i', 't', 'e'] = Command.Cmd_Write := by decide

theorem commandOf_writeNoUpdate :
    commandOf ['_', 'w', 'r', 'i', 't', 'e'] = Command.Cmd_WriteNoUpdate := by decide

/-! ## The `list` command -/

/-- C1, as stated, fails: on a five-item history `list 2 4 "<%1> row=%2\n"`
answers `c\ne\n`, the two rows under the implicit template, and not the two
lines `<c> row=2` and `<e> row=4` of the given template. -/
theorem list_trailing_template_counterexample :
    doCommand (sampleServer fiveItems)
        (Arguments.ofTokens ["list".toList, "2".toList, "4".toList, sampleTemplate]) []
      = some (true, "c\ne\n".toList, sampleServer fiveItems)
    ∧ "c\ne\n".toList ≠
        instantiate (unescapeNewline sampleTemplate)
            ((sampleServer fiveItems).browser.itemText 2) 2
          ++ instantiate (unescapeNewline sampleTemplate)
            ((sampleServer fiveItems).browser.itemText 4) 4 :=
  ⟨rfl, by decide⟩

/-- C1, amended: for every history and all integer tokens `t1`, `t2` (rows
`r1`, `r2`) and every token `T` that is no integer, `list t1 t2 T` succeeds
without touching the server, and the response starts with the implicit
template `%1\n` instantiated with the text of row `r1`, then with the text of
row `r2`: a template that follows the rows is not applied to them. -/
theorem list_rows_before_template (s : ClipboardServer) (t1 t2 T : Str) (r1 r2 : Int)
    (response : Str) (h1 : parseInt t1 = some r1) (h2 : parseInt t2 = some r2)
    (hT : parseInt T = none) :
    ∃ tail, doCommand s (Arguments.ofTokens ["list".toList, t1, t2, T]) response =
      some (true,
        response ++ instantiate "%1\n".toList (s.browser.itemText r1) r1
          ++ instantiate "%1\n".toList (s.browser.itemText r2) r2 ++ tail, s) := by
  refine ⟨[], ?_⟩
  simp [doCommand, Arguments.ofTokens, Arguments.next, commandOf_list, listLoop,
    Arguments.readInt, Arguments.finished, Arguments.atEnd, Arguments.back,
    Arguments.readIntD, h1, h2, hT]

/-- Witness for C1 (amended): the request `list 2 4 "<%1> row=%2\n"` on the
five-item history. -/
theorem list_rows_before_template_witness :
    parseInt "2".toList = some 2 ∧ parseInt "4".toList = some 4 ∧
    parseInt sampleTemplate = none ∧
    ∃ tail, doCommand (sampleServer fiveItems)
        (Arguments.ofTokens ["list".toList, "2".toList, "4".toList, sampleTemplate]) [] =
      some (true,
        [] ++ instantiate "%1\n".toList ((sampleServer fiveItems).browser.itemText 2) 2
          ++ instantiate "%1\n".toList ((sampleServer fiveItems).browser.itemText 4) 4 ++ tail,
        sampleServer fiveItems) :=
  ⟨by decide, by decide, by decide,
    list_rows_before_template (sampleServer fiveItems) "2".toList "4".toList sampleTemplate
      2 4 [] (by decide) (by decide) (by decide)⟩

/-- C2, evaluated on the code: on the five-item history
`list "<%1> row=%2\n" 2 4` answers only `<e> row=4`, row 2 is read and
produces nothing; and `list "<%1> row=%2\n"` answers nothing where row 0 is
due. -/
theorem list_template_first_row_dropped :
    doCommand (sampleServer fiveItems)
        (Arguments.ofTokens ["list".toList, sampleTemplate, "2".toList, "4".toList]) []
      = some (true, "<e> row=4\n".toList, sampleServer fiveItems)
    ∧ instantiate (unescapeNewline sampleTemplate)
          ((sampleServer fiveItems).browser.itemText 2) 2
        ++ instantiate (unescapeNewline sampleTemplate)
          ((sampleServer fiveItems).browser.itemText 4) 4
      = "<c> row=2\n<e> row=4\n".toList
    ∧ doCommand (sampleServer fiveItems)
        (Arguments.ofTokens ["list".toList, sampleTemplate]) []
      = some (true, [], sampleServer fiveItems)
    ∧ instantiate (unescapeNewline sampleTemplate)
          ((sampleServer fiveItems).browser.itemText 0) 0
      = "<a> row=0\n".toList :=
  ⟨rfl, by decide, rfl, by decide⟩

/-! ## The `length` command -/

theorem commandOf_lengthNames (name : Str)
    (hname : name = "length".toList ∨ name = "size".toList ∨ name = "count".toList) :
    commandOf name = Command.Cmd_Length := by
  rcases hname with h | h | h <;> subst h <;> decide

/-- C3: for each of the names `length`, `size` and `count`: without further
token `doCommand` succeeds, leaves the server as it is, and the response is
the decimal text of the item count followed by one newline; with at least
one further token it fails with response and server unchanged, and
`newConnection` answers with the syntax-error message in a frame whose
exit-code field is 2. -/
theorem length_command (compress : Str → Str) (s : ClipboardServer) (name response : Str)
    (hname : name = "length".toList ∨ name = "size".toList ∨ name = "count".toList) :
    doCommand s (Arguments.ofTokens [name]) response
      = some (true, Nat.toDigits 10 s.browser.length ++ ['\n'], s)
    ∧ (∀ t more, doCommand s (Arguments.ofTokens (name :: t :: more)) response
        = some (false, response, s))
    ∧ (∀ t more, newConnection compress s (some (name :: t :: more))
        = sendMessage compress s badSyntaxMessage 2)
    ∧ (∀ t more, ∃ payload, (newConnection compress s (some (name :: t :: more))).calls
        = s.calls ++ [Call.clientWrite ([0, 0, 0, 2] ++ payload)]) := by
  have hc := commandOf_lengthNames name hname
  have hfail : ∀ (r : Str) t more, doCommand s (Arguments.ofTokens (name :: t :: more)) r
      = some (false, r, s) := by
    intro r t more
    simp [doCommand, Arguments.ofTokens, Arguments.next, hc, Arguments.finished]
  refine ⟨?_, hfail response, ?_, ?_⟩
  · simp only [doCommand, Arguments.ofTokens, Arguments.next, hc, Arguments.finished]
    rfl
  · intro t more
    simp [newConnection, hfail]
  · intro t more
    refine ⟨quint32 ((compress badSyntaxMessage).length : Int)
      ++ writeByteArray (compress badSyntaxMessage), ?_⟩
    simp only [newConnection, hfail, sendMessage, ClipboardServer.call]
    rfl

/-- Witness for C3: `count` on the five-item history. -/
theorem length_command_witness :
    doCommand (sampleServer fiveItems) (Arguments.ofTokens ["count".toList]) []
      = some (true, "5\n".toList, sampleServer fiveItems)
    ∧ doCommand (sampleServer fiveItems)
        (Arguments.ofTokens ["count".toList, "1".toList]) []
      = some (false, [], sampleServer fiveItems) :=
  ⟨(length_command id (sampleServer fiveItems) "count".toList [] (Or.inr (Or.inr rfl))).1,
    (length_command id (sampleServer fiveItems) "count".toList []
      (Or.inr (Or.inr rfl))).2.1 "1".toList []⟩

/-! ## The `write` commands -/

theorem writeLoop_pairs (pairs : List (Str × Str)) :
    ∀ (consumed : List Str) (data : MimeData) (fuel : Nat), pairs ≠ [] → pairs.length ≤ fuel →
      ∃ a, writeLoop fuel ⟨consumed, pairTokens pairs, false⟩ data
        = some (some (pairs.foldl (fun d p => setData d p.1 p.2) data), a) := by
  induction pairs with
  | nil => intro _ _ _ h; exact absurd rfl h
  | cons p ps ih =>
    intro consumed data fuel _ hfuel
    cases fuel with
    | zero => simp at hfuel
    | succ fuel =>
      cases ps with
      | nil =>
        exact ⟨_, by simp [writeLoop, pairTokens, Arguments.next, Arguments.atEnd]; rfl⟩
      | cons q qs =>
        obtain ⟨a, ha⟩ := ih (p.2 :: p.1 :: consumed) (setData data p.1 p.2) fuel
          (by simp) (by simpa using hfuel)
        refine ⟨a, ?_⟩
        simpa [writeLoop, pairTokens, Arguments.next, Arguments.atEnd] using ha

theorem writeLoop_odd (fuel : Nat) :
    ∀ (l consumed : List Str) (data : MimeData), l.length % 2 = 1 → l.length < 2 * fuel →
      ∃ a, writeLoop fuel ⟨consumed, l, false⟩ data = some (none, a) := by
  induction fuel with
  | zero => intro l _ _ _ h; simp at h
  | succ fuel ih =>
    intro l consumed data hodd hfuel
    match l, hodd, hfuel with
    | [], hodd, _ => simp at hodd
    | [x], _, _ => exact ⟨_, by simp [writeLoop, Arguments.next]; rfl⟩
    | x :: y :: [], hodd, _ => simp at hodd
    | x :: y :: z :: more, hodd, hfuel =>
      obtain ⟨a, ha⟩ := ih (z :: more) (y :: x :: consumed) (setData data x y)
        (by simp only [List.length_cons] at hodd ⊢; omega)
        (by simp only [List.length_cons] at hfuel ⊢; omega)
      refine ⟨a, ?_⟩
      simpa [writeLoop, Arguments.next, Arguments.atEnd] using ha

theorem writeLoop_empty (fuel : Nat) (consumed : List Str) (data : MimeData) :
    ∃ a, writeLoop (fuel + 1) ⟨consumed, [], false⟩ data = some (none, a) :=
  ⟨_, by simp [writeLoop, Arguments.next]; rfl⟩



theorem length_pairTokens (pairs : List (Str × Str)) :
    (pairTokens pairs).length = 2 * pairs.length := by
  induction pairs with
  | nil => rfl
  | cons p ps ih => simp [pairTokens, ih]; omega

theorem mem_setData (d : MimeData) (k v : Str) (e : Str × Str) :
    e ∈ setData d k v ↔ (e ∈ d ∧ e.1 ≠ k) ∨ e = (k, v) := by
  simp [setData, List.mem_filter]

theorem mem_formats_setData (d : MimeData) (k v m : Str) :
    m ∈ formats (setData d k v) ↔ m ∈ formats d ∨ m = k := by
  by_cases h : m = k
  · subst h
    simp [formats, setData]
  · simp only [formats, setData, List.map_append, List.mem_append, List.mem_map,
      List.mem_filter, decide_eq_true_eq]
    constructor
    · rintro (⟨e, ⟨he, _⟩, rfl⟩ | ⟨e, he, rfl⟩)
      · exact Or.inl ⟨e, he, rfl⟩
      · simp at he
        exact absurd (by rw [he]) h
    · rintro (⟨e, he, rfl⟩ | hm)
      · exact Or.inl ⟨e, ⟨he, h⟩, rfl⟩
      · exact absurd hm h

theorem nodup_formats_setData (d : MimeData) (k v : Str) (h : (formats d).Nodup) :
    (formats (setData d k v)).Nodup := by
  simp only [formats, setData, List.map_append, List.map_cons, List.map_nil]
  rw [List.nodup_append]
  refine ⟨List.Nodup.sublist (List.Sublist.map _ (List.filter_sublist d)) h, by simp, ?_⟩
  intro m hm hk
  simp only [List.mem_singleton] at hk
  subst hk
  simp [List.mem_filter] at hm

theorem setData_of_not_mem (d : MimeData) (k v : Str) (h : k ∉ formats d) :
    setData d k v = d ++ [(k, v)] := by
  simp only [setData]
  congr 1
  rw [List.filter_eq_self]
  intro e he
  simp only [decide_eq_true_eq]
  intro hk
  exact h (by simp only [formats, List.mem_map]; exact ⟨e, he, hk⟩)

theorem mimeBytes_of_mem (d : MimeData) (m b : Str) (hn : (formats d).Nodup)
    (h : (m, b) ∈ d) : mimeBytes d m = b := by
  induction d with
  | nil => simp at h
  | cons e es ih =>
    simp only [formats, List.map_cons, List.nodup_cons] at hn
    by_cases he : e.1 = m
    · have : e = (m, b) := by
        rcases List.mem_cons.mp h with h | h
        · exact h.symm
        · exact absurd (List.mem_map.mpr ⟨(m, b), h, he.symm⟩) hn.1
      subst this
      simp [mimeBytes, List.find?]
    · have hmem : (m, b) ∈ es := by
        rcases List.mem_cons.mp h with h | h
        · exact absurd (by rw [← h]) he
        · exact h
      have := ih hn.2 hmem
      simp only [mimeBytes, List.find?, he, decide_False] at this ⊢
      exact this

theorem writtenItem_append (pairs : List (Str × Str)) (p : Str × Str) :
    writtenItem (pairs ++ [p]) = setData (writtenItem pairs) p.1 p.2 := by
  simp [writtenItem, List.foldl_append]

theorem mem_formats_writtenItem (pairs : List (Str × Str)) (m : Str) :
    m ∈ formats (writtenItem pairs) ↔ m ∈ pairs.map Prod.fst := by
  induction pairs using List.reverseRecOn with
  | nil => simp [writtenItem, formats]
  | append_singleton ps p ih =>
    rw [writtenItem_append, mem_formats_setData, ih]
    simp

theorem nodup_formats_writtenItem (pairs : List (Str × Str)) :
    (formats (writtenItem pairs)).Nodup := by
  induction pairs using List.reverseRecOn with
  | nil => simp [writtenItem, formats]
  | append_singleton ps p ih =>
    rw [writtenItem_append]
    exact nodup_formats_setData _ _ _ ih

theorem mem_writtenItem_last (before after : List (Str × Str)) (m b : Str)
    (h : m ∉ after.map Prod.fst) : (m, b) ∈ writtenItem (before ++ (m, b) :: after) := by
  induction after using List.reverseRecOn with
  | nil => rw [writtenItem_append, mem_setData]; exact Or.inr rfl
  | append_singleton qs q ih =>
    have hq : m ∉ qs.map Prod.fst ∧ m ≠ q.1 := by
      simp only [List.map_append, List.mem_append, not_or, List.map_cons, List.map_nil,
        List.mem_singleton] at h
      exact h
    have : before ++ (m, b) :: (qs ++ [q]) = (before ++ (m, b) :: qs) ++ [q] := by simp
    rw [this, writtenItem_append, mem_setData]
    exact Or.inl ⟨ih hq.1, hq.2⟩

theorem writtenItem_of_nodup (pairs : List (Str × Str)) (h : (pairs.map Prod.fst).Nodup) :
    writtenItem pairs = pairs := by
  induction pairs using List.reverseRecOn with
  | nil => rfl
  | append_singleton ps p ih =>
    rw [List.map_append, List.nodup_append] at h
    have hp : p.1 ∉ ps.map Prod.fst := fun hm => h.2.2 hm (by simp)
    rw [writtenItem_append, ih h.1, setData_of_not_mem _ _ _ hp]



theorem doWrite_pairs (noupdate : Bool) (s : ClipboardServer) (consumed : List Str)
    (pairs : List (Str × Str)) (response : Str) (hN : pairs ≠ []) :
    doWrite noupdate s ⟨consumed, pairTokens pairs, false⟩ response =
      some (true, response,
        if noupdate && s.isMonitoring then
          ((s.setAutoUpdate false).call (Call.addData (writtenItem pairs))).setAutoUpdate true
        else s.call (Call.addData (writtenItem pairs))) := by
  obtain ⟨a, ha⟩ := writeLoop_pairs pairs consumed [] ((pairTokens pairs).length + 1) hN
    (by rw [length_pairTokens]; omega)
  simp only [doWrite, ha, writtenItem]
  cases noupdate <;> cases hm : s.isMonitoring <;>
    simp_all [ClipboardServer.isMonitoring, ClipboardServer.setAutoUpdate, ClipboardServer.call]

theorem doWrite_malformed (noupdate : Bool) (s : ClipboardServer) (consumed args : List Str)
    (response : Str) (hargs : args = [] ∨ args.length % 2 = 1) :
    doWrite noupdate s ⟨consumed, args, false⟩ response = some (false, response, s) := by
  have h : ∃ a, writeLoop (args.length + 1) ⟨consumed, args, false⟩ [] = some (none, a) := by
    rcases hargs with h | h
    · subst h
      exact writeLoop_empty _ _ _
    · exact writeLoop_odd _ _ _ _ h (by omega)
  obtain ⟨a, ha⟩ := h
  simp only [doWrite, ha]

/-- C4, amended: a `write` or `_write` request with `N ≥ 1` (MIME type,
bytes) pairs succeeds and issues exactly one `add`, of one item (for `_write`
between `setAutoUpdate(false)` and `setAutoUpdate(true)` when a worker is
monitored).  The MIME keys of the item are exactly the types given in the
request, each key once, and each type is mapped to the bytes of the last pair
that carries it; when the `N` types are pairwise distinct the item is exactly
the `N` pairs. -/
theorem write_adds_one_item (s : ClipboardServer) (pairs : List (Str × Str)) (response : Str)
    (hN : pairs ≠ []) :
    doCommand s (Arguments.ofTokens ("write".toList :: pairTokens pairs)) response
      = some (true, response, s.call (Call.addData (writtenItem pairs)))
    ∧ doCommand s (Arguments.ofTokens ("_write".toList :: pairTokens pairs)) response
      = some (true, response,
          if s.isMonitoring then
            ((s.setAutoUpdate false).call (Call.addData (writtenItem pairs))).setAutoUpdate true
          else s.call (Call.addData (writtenItem pairs)))
    ∧ (∀ m, m ∈ formats (writtenItem pairs) ↔ m ∈ pairs.map Prod.fst)
    ∧ (formats (writtenItem pairs)).Nodup
    ∧ (∀ before m b after, pairs = before ++ (m, b) :: after → m ∉ after.map Prod.fst →
        mimeBytes (writtenItem pairs) m = b)
    ∧ ((pairs.map Prod.fst).Nodup → writtenItem pairs = pairs) := by
  refine ⟨?_, ?_, mem_formats_writtenItem pairs, nodup_formats_writtenItem pairs, ?_,
    writtenItem_of_nodup pairs⟩
  · simp [doCommand, Arguments.ofTokens, Arguments.next, commandOf_write, doWrite_pairs, hN]
  · simp [doCommand, Arguments.ofTokens, Arguments.next, commandOf_writeNoUpdate,
      doWrite_pairs, hN]
  · intro before m b after hp hm
    subst hp
    exact mimeBytes_of_mem _ _ _ (nodup_formats_writtenItem _) (mem_writtenItem_last _ _ _ _ hm)

/-- C5: a `write` or `_write` request with no argument token or with an odd
number of them makes `doCommand` return false with the response and the
whole server unchanged: no call is issued, so neither `add` nor
`setAutoUpdate`, and the auto-update flag keeps its value. -/
theorem write_malformed_rejected (s : ClipboardServer) (name : Str) (args : List Str)
    (response : Str) (hname : name = "write".toList ∨ name = "_write".toList)
    (hargs : args = [] ∨ args.length % 2 = 1) :
    doCommand s (Arguments.ofTokens (name :: args)) response = some (false, response, s) := by
  rcases hname with h | h <;> subst h
  · simp [doCommand, Arguments.ofTokens, Arguments.next, commandOf_write, doWrite_malformed, hargs]
  · simp [doCommand, Arguments.ofTokens, Arguments.next, commandOf_writeNoUpdate,
      doWrite_malformed, hargs]

/-- Witness for C4 (amended): `write a X b Y`. -/
theorem write_adds_one_item_witness :
    [("a".toList, "X".toList), ("b".toList, "Y".toList)] ≠ ([] : List (Str × Str))
    ∧ doCommand (sampleServer fiveItems)
        (Arguments.ofTokens ["write".toList, "a".toList, "X".toList, "b".toList, "Y".toList]) []
      = some (true, [], (sampleServer fiveItems).call
          (Call.addData [("a".toList, "X".toList), ("b".toList, "Y".toList)])) :=
  ⟨by decide,
    (write_adds_one_item (sampleServer fiveItems)
      [("a".toList, "X".toList), ("b".toList, "Y".toList)] [] (by decide)).1⟩

/-- C4, as stated, fails: `write a X a Y` carries two pairs, the item added
holds the single entry `a ↦ Y`, so the type `a` of the first pair is not
mapped to the bytes `X` paired with it. -/
theorem write_duplicate_type_counterexample :
    doCommand (sampleServer fiveItems)
        (Arguments.ofTokens ["write".toList, "a".toList, "X".toList, "a".toList, "Y".toList]) []
      = some (true, [], (sampleServer fiveItems).call
          (Call.addData [("a".toList, "Y".toList)]))
    ∧ mimeBytes [("a".toList, "Y".toList)] "a".toList ≠ "X".toList
    ∧ (formats [("a".toList, "Y".toList)]).length ≠ 2 :=
  ⟨rfl, by decide, by decide⟩

/-- Witness for C5: `write a X b`, three argument tokens. -/
theorem write_malformed_rejected_witness :
    ["a".toList, "X".toList, "b".toList].length % 2 = 1
    ∧ doCommand (sampleServer fiveItems)
        (Arguments.ofTokens ["write".toList, "a".toList, "X".toList, "b".toList]) []
      = some (false, [], sampleServer fiveItems) :=
  ⟨by decide,
    write_malformed_rejected (sampleServer fiveItems) "write".toList
      ["a".toList, "X".toList, "b".toList] [] (Or.inl rfl) (Or.inr (by decide))⟩

/-! ## Unknown commands and the answer frame -/

theorem commandOf_unknown (cmd : Str) (h : cmd ∉ m_commands.map Prod.fst) :
    commandOf cmd = Command.Cmd_Unknown := by
  have hf : m_commands.find? (fun e => decide (e.1 = cmd)) = none := by
    rw [List.find?_eq_none]
    intro e he
    simp only [decide_eq_true_eq]
    intro hc
    exact h (List.mem_map.mpr ⟨e, he, hc⟩)
  simp only [commandOf, hf]

/-- C6: the table holds exactly the fifteen names; a request without first
token, or whose first token is not (character for character) one of them,
makes `doCommand` return false with the response and the whole server
unchanged, so no collaborator is called, and `newConnection` answers with the
syntax-error message and exit code 2; and whenever `doCommand` returns true,
`newConnection` answers with its response and exit code 0. -/
theorem unknown_command_rejected (compress : Str → Str) (s : ClipboardServer) (response : Str) :
    m_commands.map Prod.fst =
      ["toggle".toList, "exit".toList, "menu".toList, "action".toList, "add".toList,
        "write".toList, "_write".toList, "edit".toList, "select".toList, "remove".toList,
        "length".toList, "size".toList, "count".toList, "list".toList, "read".toList]
    ∧ doCommand s (Arguments.ofTokens []) response = some (false, response, s)
    ∧ (∀ cmd more, cmd ∉ m_commands.map Prod.fst →
        doCommand s (Arguments.ofTokens (cmd :: more)) response = some (false, response, s))
    ∧ newConnection compress s (some []) = sendMessage compress s badSyntaxMessage 2
    ∧ (∀ cmd more, cmd ∉ m_commands.map Prod.fst →
        newConnection compress s (some (cmd :: more))
          = sendMessage compress s badSyntaxMessage 2)
    ∧ (∀ tokens client_msg s', doCommand s (Arguments.ofTokens tokens) [] =
          some (true, client_msg, s') →
        newConnection compress s (some tokens) = sendMessage compress s' client_msg 0) := by
  have hmiss : ∀ r : Str, doCommand s (Arguments.ofTokens []) r = some (false, r, s) := by
    intro r
    simp [doCommand, Arguments.ofTokens, Arguments.next]
  have hunk : ∀ (r : Str) cmd more, cmd ∉ m_commands.map Prod.fst →
      doCommand s (Arguments.ofTokens (cmd :: more)) r = some (false, r, s) := by
    intro r cmd more h
    simp [doCommand, Arguments.ofTokens, Arguments.next, commandOf_unknown cmd h]
  refine ⟨rfl, hmiss response, hunk response, ?_, ?_, ?_⟩
  · simp [newConnection, hmiss]
  · intro cmd more h
    simp [newConnection, hunk _ cmd more h]
  · intro tokens client_msg s' h
    simp [newConnection, h, defaultExitCode]

/-- C7, amended: for every message and exit code the bytes `sendMessage`
writes are four fields: the exit code as a `quint32`, the length `N` of the
compressed message as a `quint32`, `N` once more as the size that
`QDataStream` writes in front of a byte array, then the `N` bytes; the frame
is `12 + N` bytes long. -/
theorem sendMessage_frame (compress : Str → Str) (s : ClipboardServer) (message : Str)
    (exit_code : Int) :
    (sendMessage compress s message exit_code).calls =
      s.calls ++ [Call.clientWrite
        (quint32 exit_code ++ quint32 ((compress message).length : Int)
          ++ quint32 ((compress message).length : Int) ++ (compress message).map Char.toNat)]
    ∧ (quint32 exit_code ++ quint32 ((compress message).length : Int)
          ++ quint32 ((compress message).length : Int)
          ++ (compress message).map Char.toNat).length = 12 + (compress message).length := by
  constructor
  · simp [sendMessage, writeByteArray, ClipboardServer.call]
  · simp [quint32]
    omega

/-- C7, as stated, fails: with the identity for `qCompress`, the message `ok`
and exit code 0 the frame written has 14 bytes, the length field twice, and
is not the three-field string of `8 + 2` bytes. -/
theorem sendMessage_three_fields_counterexample :
    (sendMessage id (idleServer []) "ok".toList 0).calls
      = [Call.clientWrite [0, 0, 0, 0, 0, 0, 0, 2, 0, 0, 0, 2, 111, 107]]
    ∧ [0, 0, 0, 0, 0, 0, 0, 2, 0, 0, 0, 2, 111, 107]
        ≠ quint32 0 ++ quint32 ((id "ok".toList).length : Int) ++ (id "ok".toList).map Char.toNat
    ∧ [0, 0, 0, 0, 0, 0, 0, 2, 0, 0, 0, 2, 111, 107].length ≠ 8 + (id "ok".toList).length := by
  refine ⟨by decide, by decide, by decide⟩


/-- Witness for C6: `Length` (capitalised) is not in the table and is
rejected; `length` is accepted and answered with exit code 0. -/
theorem unknown_command_rejected_witness :
    "Length".toList ∉ m_commands.map Prod.fst
    ∧ doCommand (sampleServer fiveItems) (Arguments.ofTokens ["Length".toList]) []
        = some (false, [], sampleServer fiveItems)
    ∧ newConnection id (sampleServer fiveItems) (some ["Length".toList])
        = sendMessage id (sampleServer fiveItems) badSyntaxMessage 2
    ∧ newConnection id (sampleServer fiveItems) (some ["length".toList])
        = sendMessage id (sampleServer fiveItems) "5\n".toList 0 :=
  ⟨by decide,
    (unknown_command_rejected id (sampleServer fiveItems) []).2.2.1 "Length".toList []
      (by decide),
    (unknown_command_rejected id (sampleServer fiveItems) []).2.2.2.2.1 "Length".toList []
      (by decide),
    (unknown_command_rejected id (sampleServer fiveItems) []).2.2.2.2.2 ["length".toList]
      "5\n".toList (sampleServer fiveItems) rfl⟩

/-! ## Properties of the supervisor -/

theorem startMonitoring_of_handle (started : Bool) (s : ClipboardServer) (p : Nat)
    (h : s.m_monitor = some p) : startMonitoring started s = s.setAutoUpdate true := by
  simp [startMonitoring, h]

theorem stopMonitoring_of_idle (w : Worker) (s : ClipboardServer) (h : s.m_monitor = none) :
    stopMonitoring w s = s.setAutoUpdate false := by
  simp [stopMonitoring, h]

theorem startMonitoring_holds_handle (started : Bool) (s : ClipboardServer) :
    ∃ p, (startMonitoring started s).m_monitor = some p := by
  cases h : s.m_monitor with
  | none =>
    refine ⟨s.nextId, ?_⟩
    cases started <;> simp [startMonitoring, h, ClipboardServer.call, ClipboardServer.setAutoUpdate]
  | some p => exact ⟨p, by simp [startMonitoring, h, ClipboardServer.setAutoUpdate]⟩

theorem stopMonitoring_of_handle (w : Worker) (s : ClipboardServer) (p : Nat)
    (h : s.m_monitor = some p) :
    stopMonitoring w s = (releaseMonitor w p s).setAutoUpdate false := by
  simp [stopMonitoring, h]

theorem stopMonitoring_m_monitor (w : Worker) (s : ClipboardServer) :
    (stopMonitoring w s).m_monitor = none := by
  cases h : s.m_monitor with
  | none => simp [stopMonitoring, h, ClipboardServer.setAutoUpdate]
  | some p => simp [stopMonitoring, h, ClipboardServer.setAutoUpdate, releaseMonitor]

/-- C8: `startMonitoring` with a worker handle held keeps the handle, the
connection and the object counter, and its only call is
`setAutoUpdate(true)`: no process is created or started; `stopMonitoring`
without handle stays without handle and its only call is
`setAutoUpdate(false)`: nothing is closed, terminated or killed.  Hence a
second `startMonitoring` leaves handle, connection and counter as the first
left them (and the browser too unless the first start timed out), and a
second `stopMonitoring` leaves them and the browser as the first left them. -/
theorem supervisor_idempotent (w w' : Worker) (started started' : Bool) (s : ClipboardServer) :
    (∀ p, s.m_monitor = some p →
      startMonitoring started s = s.setAutoUpdate true
      ∧ (startMonitoring started s).m_monitor = some p
      ∧ (startMonitoring started s).m_socket = s.m_socket
      ∧ (startMonitoring started s).nextId = s.nextId
      ∧ (startMonitoring started s).calls = s.calls ++ [Call.setAutoUpdate true])
    ∧ (s.m_monitor = none →
      stopMonitoring w s = s.setAutoUpdate false
      ∧ (stopMonitoring w s).m_monitor = none
      ∧ (stopMonitoring w s).m_socket = s.m_socket
      ∧ (stopMonitoring w s).calls = s.calls ++ [Call.setAutoUpdate false])
    ∧ (startMonitoring started' (startMonitoring started s)).m_monitor
          = (startMonitoring started s).m_monitor
    ∧ (startMonitoring started' (startMonitoring started s)).m_socket
          = (startMonitoring started s).m_socket
    ∧ (startMonitoring started' (startMonitoring started s)).nextId
          = (startMonitoring started s).nextId
    ∧ (started = true ∨ s.m_monitor ≠ none →
        (startMonitoring started' (startMonitoring started s)).browser
          = (startMonitoring started s).browser)
    ∧ (stopMonitoring w' (stopMonitoring w s)).m_monitor = (stopMonitoring w s).m_monitor
    ∧ (stopMonitoring w' (stopMonitoring w s)).m_socket = (stopMonitoring w s).m_socket
    ∧ (stopMonitoring w' (stopMonitoring w s)).nextId = (stopMonitoring w s).nextId
    ∧ (stopMonitoring w' (stopMonitoring w s)).browser = (stopMonitoring w s).browser := by
  obtain ⟨q, hq⟩ := startMonitoring_holds_handle started s
  have hstart := startMonitoring_of_handle started' _ q hq
  have hstop := stopMonitoring_of_idle w' _ (stopMonitoring_m_monitor w s)
  refine ⟨?_, ?_, ?_, ?_, ?_, ?_, ?_, ?_, ?_, ?_⟩
  · intro p hp
    rw [startMonitoring_of_handle started s p hp]
    simp [ClipboardServer.setAutoUpdate, hp]
  · intro h
    rw [stopMonitoring_of_idle w s h]
    simp [ClipboardServer.setAutoUpdate, h]
  · rw [hstart]; rfl
  · rw [hstart]; rfl
  · rw [hstart]; rfl
  · intro h
    rw [hstart]
    have hb : (startMonitoring started s).browser.autoUpdate = true := by
      cases hm : s.m_monitor with
      | some p => simp [startMonitoring, hm, ClipboardServer.setAutoUpdate]
      | none =>
        rcases h with h | h
        · subst h
          simp [startMonitoring, hm, ClipboardServer.setAutoUpdate, ClipboardServer.call]
        · exact absurd hm h
    cases hs : (startMonitoring started s).browser with
    | mk l t d a =>
      rw [hs] at hb
      simp only [ClipboardServer.setAutoUpdate, hs]
      simp only at hb
      rw [hb]
  · rw [hstop]; rfl
  · rw [hstop]; rfl
  · rw [hstop]; rfl
  · rw [hstop]
    have hb : (stopMonitoring w s).browser.autoUpdate = false := by
      simp [stopMonitoring, ClipboardServer.setAutoUpdate]
    cases hs : (stopMonitoring w s).browser with
    | mk l t d a =>
      rw [hs] at hb
      simp only [ClipboardServer.setAutoUpdate, hs]
      simp only at hb
      rw [hb]

/-- C9: for every server state and every behaviour of the worker during
shutdown, after `stopMonitoring` the field `m_monitor` is null and
auto-update is off, the last call being `setAutoUpdate(false)`; when a
handle `p` was held, the call before that is `deleteLater` on `p`. -/
theorem stop_releases_handle (w : Worker) (s : ClipboardServer) :
    (stopMonitoring w s).m_monitor = none
    ∧ (stopMonitoring w s).browser.autoUpdate = false
    ∧ (∃ before, (stopMonitoring w s).calls = before ++ [Call.setAutoUpdate false])
    ∧ (∀ p, s.m_monitor = some p → ∃ before,
        (stopMonitoring w s).calls
          = before ++ [Call.processDeleteLater p, Call.setAutoUpdate false]) := by
  refine ⟨stopMonitoring_m_monitor w s, by simp [stopMonitoring, ClipboardServer.setAutoUpdate],
    ⟨_, by simp only [stopMonitoring, ClipboardServer.setAutoUpdate]; rfl⟩, ?_⟩
  intro p hp
  exact ⟨_, by
    simp only [stopMonitoring, hp, ClipboardServer.setAutoUpdate, ClipboardServer.call,
      releaseMonitor, List.append_assoc, List.singleton_append]
    rfl⟩



theorem closeConnection_frame (p : Nat) (s : ClipboardServer) :
    (closeConnection p s).1.m_monitor = s.m_monitor
    ∧ (closeConnection p s).1.nextId = s.nextId
    ∧ (closeConnection p s).1.browser = s.browser
    ∧ ∃ added, (closeConnection p s).1.calls = s.calls ++ added := by
  cases h : s.m_socket with
  | none => exact ⟨by simp [closeConnection, h], by simp [closeConnection, h],
      by simp [closeConnection, h], [], by simp [closeConnection, h]⟩
  | some sock =>
    exact ⟨by simp [closeConnection, h, ClipboardServer.call],
      by simp [closeConnection, h, ClipboardServer.call],
      by simp [closeConnection, h, ClipboardServer.call],
      _, by simp only [closeConnection, h, ClipboardServer.call, List.append_assoc]; rfl⟩

theorem shutdownWorker_frame (w : Worker) (p : Nat) (s : ClipboardServer) :
    (shutdownWorker w p s).1.m_monitor = s.m_monitor
    ∧ (shutdownWorker w p s).1.nextId = s.nextId
    ∧ (shutdownWorker w p s).1.browser = s.browser
    ∧ ∃ added, (shutdownWorker w p s).1.calls = s.calls ++ added := by
  obtain ⟨hm, hn, hb, added, hc⟩ := closeConnection_frame p
    (s.call (Call.log "Clipboard Monitor: Terminating".toList LogLevel.LogNote))
  simp only [ClipboardServer.call] at hm hn hb hc
  unfold shutdownWorker
  simp only [ClipboardServer.call]
  split_ifs
  · exact ⟨hm, hn, hb, _, by simp only [hc, List.append_assoc]; rfl⟩
  · exact ⟨hm, hn, hb, _, by simp only [hc, List.append_assoc]; rfl⟩
  · exact ⟨hm, hn, hb, _, by simp only [hc, List.append_assoc]; rfl⟩
  · exact ⟨hm, hn, hb, _, by simp only [hc, List.append_assoc]; rfl⟩
  · exact ⟨rfl, rfl, rfl, [], by simp⟩

theorem releaseMonitor_frame (w : Worker) (p : Nat) (s : ClipboardServer) :
    (releaseMonitor w p s).m_monitor = none
    ∧ (releaseMonitor w p s).nextId = s.nextId
    ∧ (releaseMonitor w p s).browser = s.browser
    ∧ ∃ added, (releaseMonitor w p s).calls
        = s.calls ++ [Call.processDisconnect p] ++ added ++ [Call.processDeleteLater p] := by
  obtain ⟨_, hn, hb, added, hc⟩ := shutdownWorker_frame w p (s.call (Call.processDisconnect p))
  simp only [ClipboardServer.call] at hn hb hc
  refine ⟨rfl, ?_, ?_, ?_⟩
  · simp only [releaseMonitor, ClipboardServer.call]
    split_ifs <;> exact hn
  · simp only [releaseMonitor, ClipboardServer.call]
    split_ifs <;> exact hb
  · simp only [releaseMonitor, ClipboardServer.call]
    split_ifs
    · exact ⟨added ++ [Call.log "Clipboard Monitor: Terminated".toList LogLevel.LogNote],
        by simp only [hc, List.append_assoc]⟩
    · exact ⟨added, by simp only [hc, List.append_assoc]⟩



theorem startMonitoring_after_stop (s : ClipboardServer) (h : s.m_monitor = none) :
    startMonitoring true (s.setAutoUpdate false) =
      { m_monitor := some s.nextId, m_socket := s.m_socket,
        browser := { s.browser with autoUpdate := true }, nextId := s.nextId + 1,
        calls := s.calls ++ [Call.setAutoUpdate false, Call.processNew s.nextId,
          Call.processStart s.nextId ["monitor".toList],
          Call.processWaitForStarted s.nextId 2000, Call.setAutoUpdate true] } := by
  simp [startMonitoring, ClipboardServer.setAutoUpdate, ClipboardServer.call, h]

/-- C10: when `monitorStateChanged(NotRunning)` arrives while worker `p` is
held, the calls are, in this order: the log of the worker's diagnostic
output, the log and `showError` of the crash message, those of
`stopMonitoring` (from the disconnect of `p` to `deleteLater` on `p` and
`setAutoUpdate(false)`), then those of `startMonitoring`; and when the new
worker starts in time the server ends holding the newly created process, not
`p`, with auto-update on.  For a worker that is `NotRunning` the calls are
listed in full. -/
theorem crash_recovery (stderrText : Str) (w : Worker) (s : ClipboardServer) (p : Nat)
    (hp : s.m_monitor = some p) :
    (∀ started, monitorStateChanged ProcessState.NotRunning stderrText w started s
        = startMonitoring started (stopMonitoring w
            (((s.call (Call.log ("Clipboard Monitor: ".toList ++ stderrText) LogLevel.LogError)).call
              (Call.log "Clipboard monitor crashed!".toList LogLevel.LogError)).call
              (Call.showError "Clipboard monitor crashed!".toList))))
    ∧ (∃ shutdown, (monitorStateChanged ProcessState.NotRunning stderrText w true s).calls
        = s.calls
          ++ [Call.log ("Clipboard Monitor: ".toList ++ stderrText) LogLevel.LogError,
              Call.log "Clipboard monitor crashed!".toList LogLevel.LogError,
              Call.showError "Clipboard monitor crashed!".toList,
              Call.processDisconnect p]
          ++ shutdown
          ++ [Call.processDeleteLater p, Call.setAutoUpdate false,
              Call.processNew s.nextId, Call.processStart s.nextId ["monitor".toList],
              Call.processWaitForStarted s.nextId 2000, Call.setAutoUpdate true])
    ∧ (monitorStateChanged ProcessState.NotRunning stderrText w true s).m_monitor
        = some s.nextId
    ∧ (monitorStateChanged ProcessState.NotRunning stderrText w true s).nextId = s.nextId + 1
    ∧ (monitorStateChanged ProcessState.NotRunning stderrText w true s).browser.autoUpdate = true
    ∧ (p < s.nextId →
        (monitorStateChanged ProcessState.NotRunning stderrText w true s).m_monitor ≠ some p)
    ∧ (w [] = ProcessState.NotRunning →
        (monitorStateChanged ProcessState.NotRunning stderrText w true s).calls
          = s.calls
            ++ [Call.log ("Clipboard Monitor: ".toList ++ stderrText) LogLevel.LogError,
                Call.log "Clipboard monitor crashed!".toList LogLevel.LogError,
                Call.showError "Clipboard monitor crashed!".toList,
                Call.processDisconnect p,
                Call.log "Clipboard Monitor: Terminated".toList LogLevel.LogNote,
                Call.processDeleteLater p, Call.setAutoUpdate false,
                Call.processNew s.nextId, Call.processStart s.nextId ["monitor".toList],
                Call.processWaitForStarted s.nextId 2000, Call.setAutoUpdate true]) := by
  have hdef : ∀ started, monitorStateChanged ProcessState.NotRunning stderrText w started s
        = startMonitoring started (stopMonitoring w
            (((s.call (Call.log ("Clipboard Monitor: ".toList ++ stderrText) LogLevel.LogError)).call
              (Call.log "Clipboard monitor crashed!".toList LogLevel.LogError)).call
              (Call.showError "Clipboard monitor crashed!".toList))) := fun _ => rfl
  obtain ⟨hm, hn, _, added, hc⟩ := releaseMonitor_frame w p
    (((s.call (Call.log ("Clipboard Monitor: ".toList ++ stderrText) LogLevel.LogError)).call
      (Call.log "Clipboard monitor crashed!".toList LogLevel.LogError)).call
      (Call.showError "Clipboard monitor crashed!".toList))
  have hstop := stopMonitoring_of_handle w
    (((s.call (Call.log ("Clipboard Monitor: ".toList ++ stderrText) LogLevel.LogError)).call
      (Call.log "Clipboard monitor crashed!".toList LogLevel.LogError)).call
      (Call.showError "Clipboard monitor crashed!".toList)) p hp
  have hall := hdef true
  rw [hstop, startMonitoring_after_stop _ hm] at hall
  have hn' : (releaseMonitor w p
      (((s.call (Call.log ("Clipboard Monitor: ".toList ++ stderrText) LogLevel.LogError)).call
        (Call.log "Clipboard monitor crashed!".toList LogLevel.LogError)).call
        (Call.showError "Clipboard monitor crashed!".toList))).nextId = s.nextId := hn
  have hc' : (releaseMonitor w p
      (((s.call (Call.log ("Clipboard Monitor: ".toList ++ stderrText) LogLevel.LogError)).call
        (Call.log "Clipboard monitor crashed!".toList LogLevel.LogError)).call
        (Call.showError "Clipboard monitor crashed!".toList))).calls
      = s.calls ++ [Call.log ("Clipboard Monitor: ".toList ++ stderrText) LogLevel.LogError,
            Call.log "Clipboard monitor crashed!".toList LogLevel.LogError,
            Call.showError "Clipboard monitor crashed!".toList, Call.processDisconnect p]
          ++ added ++ [Call.processDeleteLater p] := by
    rw [hc]
    simp only [ClipboardServer.call, List.append_assoc, List.singleton_append, List.cons_append,
      List.nil_append]
  have hmon : (monitorStateChanged ProcessState.NotRunning stderrText w true s).m_monitor
      = some s.nextId := by
    rw [hall, ← hn']
  refine ⟨hdef, ⟨added, ?_⟩, hmon, ?_, ?_, ?_, ?_⟩
  · rw [hall]
    simp only [hc', hn', List.append_assoc, List.singleton_append, List.cons_append,
      List.nil_append]
  · rw [hall, ← hn']
  · rw [hall]
  · intro hlt
    rw [hmon]
    intro h
    injection h with h
    omega
  · intro hcrash
    rw [hall]
    simp only [hn']
    simp [ClipboardServer.call, releaseMonitor, shutdownWorker, hcrash]


/-- Witness for C8: a second start on the monitoring sample server, and a
stop on the idle one. -/
theorem supervisor_idempotent_witness :
    (sampleServer fiveItems).m_monitor = some 0
    ∧ startMonitoring true (sampleServer fiveItems)
        = (sampleServer fiveItems).setAutoUpdate true
    ∧ (idleServer fiveItems).m_monitor = none
    ∧ stopMonitoring stubbornWorker (idleServer fiveItems)
        = (idleServer fiveItems).setAutoUpdate false :=
  ⟨rfl,
    ((supervisor_idempotent stubbornWorker stubbornWorker true true
      (sampleServer fiveItems)).1 0 rfl).1,
    rfl,
    ((supervisor_idempotent stubbornWorker stubbornWorker true true
      (idleServer fiveItems)).2.1 rfl).1⟩

/-- Witness for C9: stopping the sample server whose worker never exits, and
one whose worker exits on `terminate`. -/
theorem stop_releases_handle_witness :
    (sampleServer fiveItems).m_monitor = some 0
    ∧ (stopMonitoring stubbornWorker (sampleServer fiveItems)).m_monitor = none
    ∧ (stopMonitoring terminableWorker (sampleServer fiveItems)).browser.autoUpdate = false
    ∧ ∃ before, (stopMonitoring stubbornWorker (sampleServer fiveItems)).calls
        = before ++ [Call.processDeleteLater 0, Call.setAutoUpdate false] :=
  ⟨rfl, (stop_releases_handle stubbornWorker (sampleServer fiveItems)).1,
    (stop_releases_handle terminableWorker (sampleServer fiveItems)).2.1,
    (stop_releases_handle stubbornWorker (sampleServer fiveItems)).2.2.2 0 rfl⟩

/-- Witness for C10: the worker of the sample server crashes and its
successor starts in time. -/
theorem crash_recovery_witness :
    (sampleServer fiveItems).m_monitor = some 0
    ∧ (monitorStateChanged ProcessState.NotRunning "oops".toList crashedWorker true
        (sampleServer fiveItems)).m_monitor = some 2
    ∧ (monitorStateChanged ProcessState.NotRunning "oops".toList crashedWorker true
        (sampleServer fiveItems)).browser.autoUpdate = true
    ∧ (monitorStateChanged ProcessState.NotRunning "oops".toList crashedWorker true
        (sampleServer fiveItems)).m_monitor ≠ some 0 :=
  ⟨rfl,
    (crash_recovery "oops".toList crashedWorker (sampleServer fiveItems) 0 rfl).2.2.1,
    (crash_recovery "oops".toList crashedWorker (sampleServer fiveItems) 0 rfl).2.2.2.2.1,
    (crash_recovery "oops".toList crashedWorker (sampleServer fiveItems) 0 rfl).2.2.2.2.2.1
      (by decide)⟩

/-! ## The step budget of `doCommand` suffices -/

theorem actionRows_isSome (fuel : Nat) :
    ∀ (args : Arguments) (s : ClipboardServer), args.rest.length < fuel →
      ∃ r, actionRows fuel args s = some r := by
  induction fuel with
  | zero => intro _ _ h; simp at h
  | succ fuel ih =>
    intro args s h
    obtain ⟨consumed, rest, error⟩ := args
    cases rest with
    | nil => exact ⟨_, by simp [actionRows, Arguments.finished]; rfl⟩
    | cons t ts =>
      cases hp : parseInt t with
      | none => exact ⟨_, by simp [actionRows, Arguments.finished, Arguments.readInt, hp]; rfl⟩
      | some n =>
        cases error with
        | true => exact ⟨_, by simp [actionRows, Arguments.finished, Arguments.readInt, hp]; rfl⟩
        | false =>
          obtain ⟨r, hr⟩ := ih ⟨t :: consumed, ts, false⟩ (s.call (Call.setCurrent n true))
            (by simpa using h)
          exact ⟨r, by simpa [actionRows, Arguments.finished, Arguments.readInt, hp] using hr⟩

theorem selectRows_isSome (fuel : Nat) :
    ∀ (args : Arguments) (s : ClipboardServer), args.rest.length < fuel →
      ∃ r, selectRows fuel args s = some r := by
  induction fuel with
  | zero => intro _ _ h; simp at h
  | succ fuel ih =>
    intro args s h
    obtain ⟨consumed, rest, error⟩ := args
    cases rest with
    | nil => exact ⟨_, by simp [selectRows, Arguments.finished]; rfl⟩
    | cons t ts =>
      cases hp : parseInt t with
      | none => exact ⟨_, by simp [selectRows, Arguments.finished, Arguments.readInt, hp]; rfl⟩
      | some n =>
        cases error with
        | true => exact ⟨_, by simp [selectRows, Arguments.finished, Arguments.readInt, hp]; rfl⟩
        | false =>
          obtain ⟨r, hr⟩ := ih ⟨t :: consumed, ts, false⟩ (s.call (Call.setCurrent n true))
            (by simpa using h)
          exact ⟨r, by simpa [selectRows, Arguments.finished, Arguments.readInt, hp] using hr⟩

theorem addLoop_isSome (fuel : Nat) :
    ∀ (args : Arguments) (s : ClipboardServer), args.rest.length < fuel →
      ∃ r, addLoop fuel args s = some r := by
  induction fuel with
  | zero => intro _ _ h; simp at h
  | succ fuel ih =>
    intro args s h
    obtain ⟨consumed, rest, error⟩ := args
    cases rest with
    | nil => exact ⟨_, by simp [addLoop, Arguments.atEnd]; rfl⟩
    | cons t ts =>
      obtain ⟨r, hr⟩ := ih ⟨t :: consumed, ts, error⟩ (s.call (Call.addText t))
        (by simpa using h)
      exact ⟨r, by simpa [addLoop, Arguments.atEnd, Arguments.next] using hr⟩

theorem writeLoop_isSome (fuel : Nat) :
    ∀ (args : Arguments) (data : MimeData), args.rest.length < fuel →
      ∃ r, writeLoop fuel args data = some r := by
  induction fuel with
  | zero => intro _ _ h; simp at h
  | succ fuel ih =>
    intro args data h
    obtain ⟨consumed, rest, error⟩ := args
    match rest, h with
    | [], _ => exact ⟨_, by simp [writeLoop, Arguments.next]; rfl⟩
    | [x], _ => exact ⟨_, by simp [writeLoop, Arguments.next]; rfl⟩
    | [x, y], _ =>
      cases error with
      | true => exact ⟨_, by simp [writeLoop, Arguments.next]; rfl⟩
      | false => exact ⟨_, by simp [writeLoop, Arguments.next, Arguments.atEnd]; rfl⟩
    | x :: y :: z :: more, h =>
      cases error with
      | true => exact ⟨_, by simp [writeLoop, Arguments.next]; rfl⟩
      | false =>
        obtain ⟨r, hr⟩ := ih ⟨y :: x :: consumed, z :: more, false⟩ (setData data x y)
          (by simp only [List.length_cons] at h ⊢; omega)
        exact ⟨r, by simpa [writeLoop, Arguments.next, Arguments.atEnd] using hr⟩

theorem listLoop_isSome (c : Browser) (fuel : Nat) :
    ∀ (args : Arguments) (fmt response : Str), args.rest ≠ [] → args.rest.length ≤ fuel →
      ∃ r, listLoop c fuel args fmt response = some r := by
  induction fuel with
  | zero =>
    intro args _ _ hne h
    exact absurd (List.length_eq_zero.mp (Nat.le_zero.mp h)) hne
  | succ fuel ih =>
    intro args fmt response hne h
    obtain ⟨consumed, rest, error⟩ := args
    match rest, hne, h with
    | [t], _, _ =>
      cases hp : parseInt t with
      | none =>
        exact ⟨_, by simp [listLoop, Arguments.readInt, hp, Arguments.back, Arguments.next,
          Arguments.readIntD, Arguments.atEnd]; rfl⟩
      | some n =>
        cases error with
        | true =>
          exact ⟨_, by simp [listLoop, Arguments.readInt, hp, Arguments.back, Arguments.next,
            Arguments.readIntD, Arguments.atEnd]; rfl⟩
        | false => exact ⟨_, by simp [listLoop, Arguments.readInt, hp, Arguments.atEnd]; rfl⟩
    | t :: u :: us, _, h =>
      have hlen : (u :: us).length ≤ fuel := by simpa using h
      have hlen' : us.length ≤ fuel := by simp only [List.length_cons] at hlen; omega
      have hfail : ∀ e, (parseInt t = none ∨ e = true) → ∃ r, listLoop c (fuel + 1)
          ⟨consumed, t :: u :: us, e⟩ fmt response = some r := by
        intro e he
        have herr : (Arguments.readInt ⟨consumed, t :: u :: us, e⟩).2.error = true := by
          rcases he with he | he
          · simp [Arguments.readInt, he]
          · cases hp : parseInt t <;> simp [Arguments.readInt, hp, he]
        have hback : (Arguments.readInt ⟨consumed, t :: u :: us, e⟩).2.back
            = ⟨consumed, t :: u :: us, false⟩ := by
          cases hp : parseInt t <;> simp [Arguments.readInt, hp, Arguments.back]
        cases hu : parseInt u with
        | none =>
          obtain ⟨r, hr⟩ := ih ⟨t :: consumed, u :: us, false⟩ (unescapeNewline t) response
            (by simp) hlen
          refine ⟨r, ?_⟩
          rw [listLoop]
          simp only [herr, hback, if_true]
          simpa [Arguments.next, Arguments.readIntD, hu, Arguments.atEnd] using hr
        | some m =>
          cases us with
          | nil =>
            exact ⟨_, by
              rw [listLoop]
              simp only [herr, hback, if_true]
              simp [Arguments.next, Arguments.readIntD, hu, Arguments.atEnd]
              rfl⟩
          | cons v vs =>
            obtain ⟨r, hr⟩ := ih ⟨u :: t :: consumed, v :: vs, false⟩ (unescapeNewline t)
              response (by simp) hlen'
            refine ⟨r, ?_⟩
            rw [listLoop]
            simp only [herr, hback, if_true]
            simpa [Arguments.next, Arguments.readIntD, hu, Arguments.atEnd] using hr
      cases hp : parseInt t with
      | none => exact hfail error (Or.inl hp)
      | some n =>
        cases error with
        | true => exact hfail true (Or.inr rfl)
        | false =>
          obtain ⟨r, hr⟩ := ih ⟨t :: consumed, u :: us, false⟩ fmt
            (response ++ instantiate fmt (c.itemText n) n) (by simp) hlen
          exact ⟨r, by simpa [listLoop, Arguments.readInt, hp, Arguments.atEnd] using hr⟩

theorem readLoop_isSome (c : Browser) (fuel : Nat) :
    ∀ (args : Arguments) (mime response : Str), args.rest ≠ [] → args.rest.length ≤ fuel →
      ∃ r, readLoop c fuel args mime response = some r := by
  induction fuel with
  | zero =>
    intro args _ _ hne h
    exact absurd (List.length_eq_zero.mp (Nat.le_zero.mp h)) hne
  | succ fuel ih =>
    intro args mime response hne h
    obtain ⟨consumed, rest, error⟩ := args
    match rest, hne, h with
    | [t], _, _ =>
      cases hp : parseInt t with
      | none =>
        exact ⟨_, by simp [readLoop, Arguments.readInt, hp, Arguments.back, Arguments.next,
          Arguments.readIntD, Arguments.atEnd]; rfl⟩
      | some n =>
        cases error with
        | true =>
          exact ⟨_, by simp [readLoop, Arguments.readInt, hp, Arguments.back, Arguments.next,
            Arguments.readIntD, Arguments.atEnd]; rfl⟩
        | false => exact ⟨_, by simp [readLoop, Arguments.readInt, hp, Arguments.atEnd]; rfl⟩
    | t :: u :: us, _, h =>
      have hlen : (u :: us).length ≤ fuel := by simpa using h
      have hlen' : us.length ≤ fuel := by simp only [List.length_cons] at hlen; omega
      have hfail : ∀ e, (parseInt t = none ∨ e = true) → ∃ r, readLoop c (fuel + 1)
          ⟨consumed, t :: u :: us, e⟩ mime response = some r := by
        intro e he
        have herr : (Arguments.readInt ⟨consumed, t :: u :: us, e⟩).2.error = true := by
          rcases he with he | he
          · simp [Arguments.readInt, he]
          · cases hp : parseInt t <;> simp [Arguments.readInt, hp, he]
        have hback : (Arguments.readInt ⟨consumed, t :: u :: us, e⟩).2.back
            = ⟨consumed, t :: u :: us, false⟩ := by
          cases hp : parseInt t <;> simp [Arguments.readInt, hp, Arguments.back]
        cases hu : parseInt u with
        | none =>
          obtain ⟨r, hr⟩ := ih ⟨t :: consumed, u :: us, false⟩ t
            (response ++ c.itemData 0 t) (by simp) hlen
          refine ⟨r, ?_⟩
          rw [readLoop]
          simp only [herr, hback, if_true]
          simpa [Arguments.next, Arguments.readIntD, hu, Arguments.atEnd] using hr
        | some m =>
          cases us with
          | nil =>
            exact ⟨_, by
              rw [readLoop]
              simp only [herr, hback, if_true]
              simp [Arguments.next, Arguments.readIntD, hu, Arguments.atEnd]
              rfl⟩
          | cons v vs =>
            obtain ⟨r, hr⟩ := ih ⟨u :: t :: consumed, v :: vs, false⟩ t
              (response ++ c.itemData m t) (by simp) hlen'
            refine ⟨r, ?_⟩
            rw [readLoop]
            simp only [herr, hback, if_true]
            simpa [Arguments.next, Arguments.readIntD, hu, Arguments.atEnd] using hr
      cases hp : parseInt t with
      | none => exact hfail error (Or.inl hp)
      | some n =>
        cases error with
        | true => exact hfail true (Or.inr rfl)
        | false =>
          obtain ⟨r, hr⟩ := ih ⟨t :: consumed, u :: us, false⟩ mime
            (response ++ c.itemData n mime) (by simp) hlen
          exact ⟨r, by simpa [readLoop, Arguments.readInt, hp, Arguments.atEnd] using hr⟩

theorem readIntD_rest_length (d : Int) (a : Arguments) :
    (a.readIntD d).2.rest.length ≤ a.rest.length := by
  obtain ⟨consumed, rest, error⟩ := a
  cases rest with
  | nil => simp [Arguments.readIntD]
  | cons t ts => cases hp : parseInt t <;> simp [Arguments.readIntD, hp]

theorem doWrite_isSome (noupdate : Bool) (s : ClipboardServer) (args : Arguments)
    (response : Str) : ∃ r, doWrite noupdate s args response = some r := by
  obtain ⟨r, hr⟩ := writeLoop_isSome (args.rest.length + 1) args [] (Nat.lt_succ_self _)
  obtain ⟨d, a⟩ := r
  cases d with
  | none => exact ⟨_, by simp only [doWrite, hr]; rfl⟩
  | some data => exact ⟨_, by simp only [doWrite, hr]; rfl⟩

/-- The step budget of `doCommand` is never used up: every request gets a
result. -/
theorem doCommand_isSome (s : ClipboardServer) (tokens : List Str) (response : Str) :
    ∃ r, doCommand s (Arguments.ofTokens tokens) response = some r := by
  cases tokens with
  | nil => exact ⟨_, by simp [doCommand, Arguments.ofTokens, Arguments.next]; rfl⟩
  | cons name rest =>
    have hD : ((Arguments.readIntD 0 ⟨[name], rest, false⟩).2.rest.length
        < (name :: rest).length + 1) :=
      Nat.lt_of_le_of_lt (readIntD_rest_length 0 _) (by simp only [List.length_cons]; omega)
    simp only [doCommand, Arguments.ofTokens, Arguments.next, Bool.false_eq_true, if_false]
    cases commandOf name with
    | Cmd_Unknown => exact ⟨_, rfl⟩
    | Cmd_Toggle => simp only []; split_ifs <;> exact ⟨_, rfl⟩
    | Cmd_Exit => simp only []; split_ifs <;> exact ⟨_, rfl⟩
    | Cmd_Menu => simp only []; split_ifs <;> exact ⟨_, rfl⟩
    | Cmd_Action =>
      obtain ⟨r, hr⟩ := actionRows_isSome _ _
        (s.call (Call.setCurrent (Arguments.readIntD 0 ⟨[name], rest, false⟩).1 false)) hD
      simp only [hr]
      split_ifs <;> exact ⟨_, rfl⟩
    | Cmd_Add =>
      obtain ⟨r, hr⟩ := addLoop_isSome ((name :: rest).length + 1) ⟨[name], rest, false⟩
        (if s.isMonitoring then s.setAutoUpdate false else s)
        (by simp only [List.length_cons]; omega)
      by_cases h1 : Arguments.atEnd ⟨[name], rest, false⟩ = true
      · simp only [h1, if_true]
        exact ⟨_, rfl⟩
      · simp only [h1, hr]
        exact ⟨_, rfl⟩
    | Cmd_Write => exact doWrite_isSome _ _ _ _
    | Cmd_WriteNoUpdate => exact doWrite_isSome _ _ _ _
    | Cmd_Edit =>
      obtain ⟨r, hr⟩ := selectRows_isSome _ _
        (s.call (Call.setCurrent (Arguments.readIntD 0 ⟨[name], rest, false⟩).1 false)) hD
      obtain ⟨ok, a, s'⟩ := r
      simp only [hr]
      cases ok <;> exact ⟨_, rfl⟩
    | Cmd_Select => simp only []; split_ifs <;> exact ⟨_, rfl⟩
    | Cmd_Remove =>
      obtain ⟨r, hr⟩ := selectRows_isSome _ _
        (s.call (Call.setCurrent (Arguments.readIntD 0 ⟨[name], rest, false⟩).1 false)) hD
      obtain ⟨ok, a, s'⟩ := r
      simp only [hr]
      cases ok <;> exact ⟨_, rfl⟩
    | Cmd_Length => simp only []; split_ifs <;> exact ⟨_, rfl⟩
    | Cmd_List =>
      simp only []
      split_ifs with h1
      · exact ⟨_, rfl⟩
      · obtain ⟨r, hr⟩ := listLoop_isSome s.browser ((name :: rest).length + 1)
          ⟨[name], rest, false⟩ "%1\n".toList response
          (by simpa [Arguments.finished] using h1) (by simp only [List.length_cons]; omega)
        simp only [hr]
        exact ⟨_, rfl⟩
    | Cmd_Read =>
      simp only []
      split_ifs with h1
      · exact ⟨_, rfl⟩
      · obtain ⟨r, hr⟩ := readLoop_isSome s.browser ((name :: rest).length + 1)
          ⟨[name], rest, false⟩ "text/plain".toList response
          (by simpa [Arguments.atEnd] using h1) (by simp only [List.length_cons]; omega)
        simp only [hr]
        exact ⟨_, rfl⟩

/-! ## Restart on configuration change and start timeout -/

theorem startMonitoring_idle_started (s : ClipboardServer) (h : s.m_monitor = none) :
    startMonitoring true s =
      { m_monitor := some s.nextId, m_socket := s.m_socket,
        browser := { s.browser with autoUpdate := true }, nextId := s.nextId + 1,
        calls := s.calls ++ [Call.processNew s.nextId,
          Call.processStart s.nextId ["monitor".toList],
          Call.processWaitForStarted s.nextId 2000, Call.setAutoUpdate true] } := by
  simp [startMonitoring, ClipboardServer.setAutoUpdate, ClipboardServer.call, h]

theorem startMonitoring_idle_timeout (s : ClipboardServer) (h : s.m_monitor = none) :
    startMonitoring false s =
      { m_monitor := some s.nextId, m_socket := s.m_socket,
        browser := s.browser, nextId := s.nextId + 1,
        calls := s.calls ++ [Call.processNew s.nextId,
          Call.processStart s.nextId ["monitor".toList],
          Call.processWaitForStarted s.nextId 2000,
          Call.log "Cannot start clipboard monitor!".toList LogLevel.LogError,
          Call.processDelete s.nextId, Call.exit 10] } := by
  simp [startMonitoring, ClipboardServer.call, h]

/-- C11, as stated, fails: in the idle state `loadSettings` does nothing,
no worker is started and auto-update stays off, whereas `readyRead` with a
failed frame read restarts and ends with worker `2` and auto-update on. -/
theorem loadSettings_idle_counterexample :
    loadSettings stubbornWorker true (idleServer fiveItems) = idleServer fiveItems
    ∧ (loadSettings stubbornWorker true (idleServer fiveItems)).m_monitor = none
    ∧ (loadSettings stubbornWorker true (idleServer fiveItems)).browser.autoUpdate = false
    ∧ (loadSettings stubbornWorker true (idleServer fiveItems)).calls = []
    ∧ (readyRead none stubbornWorker true (idleServer fiveItems)).m_monitor = some 2
    ∧ (readyRead none stubbornWorker true (idleServer fiveItems)).browser.autoUpdate = true :=
  ⟨rfl, rfl, rfl, rfl, rfl, rfl⟩

theorem loadSettings_of_handle (w : Worker) (s : ClipboardServer) (p : Nat)
    (hp : s.m_monitor = some p) :
    (∀ started, loadSettings w started s = startMonitoring started (stopMonitoring w s))
    ∧ (∀ started, loadSettings w started s = readyRead none w started s)
    ∧ (loadSettings w true s).m_monitor = some s.nextId
    ∧ (loadSettings w true s).browser.autoUpdate = true
    ∧ (∃ shutdown, (loadSettings w true s).calls
        = s.calls ++ [Call.processDisconnect p] ++ shutdown
          ++ [Call.processDeleteLater p, Call.setAutoUpdate false,
              Call.processNew s.nextId, Call.processStart s.nextId ["monitor".toList],
              Call.processWaitForStarted s.nextId 2000, Call.setAutoUpdate true]) := by
  have hdef : ∀ started, loadSettings w started s
      = startMonitoring started (stopMonitoring w s) := by
    intro started
    simp [loadSettings, ClipboardServer.isMonitoring, hp]
  obtain ⟨hm, hn, _, added, hc⟩ := releaseMonitor_frame w p s
  have hall := hdef true
  rw [stopMonitoring_of_handle w s p hp, startMonitoring_after_stop _ hm] at hall
  refine ⟨hdef, fun started => (hdef started).trans rfl, ?_, ?_, ⟨added, ?_⟩⟩
  · rw [hall, ← hn]
  · rw [hall]
  · rw [hall]
    simp only [hc, hn, List.append_assoc, List.singleton_append, List.cons_append,
      List.nil_append]

/-- C12, evaluated on the code: `startMonitoring` from the idle state with a
worker that does not start in time logs the failure, deletes the process,
requests exit status 10 and leaves auto-update off, but `m_monitor` still
holds the deleted handle `2`, so the supervisor is not idle;
`stopMonitoring`, in contrast, resets the field. -/
theorem startMonitoring_timeout_keeps_handle :
    startMonitoring false (idleServer fiveItems) =
      { idleServer fiveItems with
        m_monitor := some 2, nextId := 3,
        calls := [Call.processNew 2, Call.processStart 2 ["monitor".toList],
          Call.processWaitForStarted 2 2000,
          Call.log "Cannot start clipboard monitor!".toList LogLevel.LogError,
          Call.processDelete 2, Call.exit 10] }
    ∧ (startMonitoring false (idleServer fiveItems)).m_monitor ≠ none
    ∧ (startMonitoring false (idleServer fiveItems)).isMonitoring = true
    ∧ (startMonitoring false (idleServer fiveItems)).browser.autoUpdate = false
    ∧ (stopMonitoring stubbornWorker (sampleServer fiveItems)).m_monitor = none :=
  ⟨rfl, by decide, rfl, rfl, rfl⟩

/-- C11, amended: in every state in which a worker handle is held,
`loadSettings` runs `stopMonitoring` then `startMonitoring`, the same
sequence as `readyRead` with a failed frame read, and after a successful
start the new worker is held with auto-update on; in the idle state
`loadSettings` does nothing: the server, its call record included, is
unchanged whatever the worker and the start would do. -/
theorem loadSettings_restart (w : Worker) (s : ClipboardServer) :
    (∀ p, s.m_monitor = some p →
      (∀ started, loadSettings w started s = startMonitoring started (stopMonitoring w s))
      ∧ (∀ started, loadSettings w started s = readyRead none w started s)
      ∧ (loadSettings w true s).m_monitor = some s.nextId
      ∧ (loadSettings w true s).browser.autoUpdate = true
      ∧ (∃ shutdown, (loadSettings w true s).calls
          = s.calls ++ [Call.processDisconnect p] ++ shutdown
            ++ [Call.processDeleteLater p, Call.setAutoUpdate false,
                Call.processNew s.nextId, Call.processStart s.nextId ["monitor".toList],
                Call.processWaitForStarted s.nextId 2000, Call.setAutoUpdate true]))
    ∧ (s.m_monitor = none → ∀ started, loadSettings w started s = s) := by
  refine ⟨fun p hp => loadSettings_of_handle w s p hp, ?_⟩
  intro h started
  simp [loadSettings, ClipboardServer.isMonitoring, h]

/-- Witness for C11 (amended): the monitoring sample server restarts, the
idle one is left as it is. -/
theorem loadSettings_restart_witness :
    (sampleServer fiveItems).m_monitor = some 0
    ∧ loadSettings stubbornWorker true (sampleServer fiveItems)
        = readyRead none stubbornWorker true (sampleServer fiveItems)
    ∧ (loadSettings stubbornWorker true (sampleServer fiveItems)).m_monitor = some 2
    ∧ (loadSettings stubbornWorker true (sampleServer fiveItems)).browser.autoUpdate = true
    ∧ (idleServer fiveItems).m_monitor = none
    ∧ loadSettings stubbornWorker true (idleServer fiveItems) = idleServer fiveItems :=
  ⟨rfl,
    ((loadSettings_restart stubbornWorker (sampleServer fiveItems)).1 0 rfl).2.1 true,
    ((loadSettings_restart stubbornWorker (sampleServer fiveItems)).1 0 rfl).2.2.1,
    ((loadSettings_restart stubbornWorker (sampleServer fiveItems)).1 0 rfl).2.2.2.1,
    rfl,
    (loadSettings_restart stubbornWorker (idleServer fiveItems)).2 rfl true⟩

/-! ## The `add`, `select` and `_write` commands -/

theorem commandOf_add : commandOf ['a', 'd', 'd'] = Command.Cmd_Add := by decide

theorem commandOf_select : commandOf ['s', 'e', 'l', 'e', 'c', 't'] = Command.Cmd_Select := by
  decide

theorem addLoop_all (ts : List Str) :
    ∀ (fuel : Nat) (consumed : List Str) (e : Bool) (s : ClipboardServer), ts.length < fuel →
      ∃ a, addLoop fuel ⟨consumed, ts, e⟩ s
        = some (a, { s with calls := s.calls ++ ts.map Call.addText }) := by
  induction ts with
  | nil =>
    intro fuel consumed e s h
    cases fuel with
    | zero => simp at h
    | succ fuel => exact ⟨_, by simp [addLoop, Arguments.atEnd]; rfl⟩
  | cons t ts ih =>
    intro fuel consumed e s h
    cases fuel with
    | zero => simp at h
    | succ fuel =>
      obtain ⟨a, ha⟩ := ih fuel (t :: consumed) e (s.call (Call.addText t)) (by simpa using h)
      refine ⟨a, ?_⟩
      simpa [addLoop, Arguments.atEnd, Arguments.next, ClipboardServer.call] using ha

/-- C14: `add t1 ... tn` with `n ≥ 1` succeeds and its calls are, in this
order: `setAutoUpdate(false)` when a worker is monitored, `add(t1)`, ...,
`add(tn)`, `setAutoUpdate(true)` when a worker is monitored, and one
`updateClipboard`; `add` without argument fails with the server unchanged. -/
theorem add_command (s : ClipboardServer) (t : Str) (ts : List Str) (response : Str) :
    doCommand s (Arguments.ofTokens ("add".toList :: t :: ts)) response
      = some (true, response,
          { s with
            browser := { s.browser with
              autoUpdate := if s.isMonitoring then true else s.browser.autoUpdate },
            calls := s.calls
              ++ (if s.isMonitoring then [Call.setAutoUpdate false] else [])
              ++ (t :: ts).map Call.addText
              ++ (if s.isMonitoring then [Call.setAutoUpdate true] else [])
              ++ [Call.updateClipboard] })
    ∧ doCommand s (Arguments.ofTokens ["add".toList]) response = some (false, response, s) := by
  constructor
  · obtain ⟨a, ha⟩ := addLoop_all (t :: ts) ((("add".toList :: t :: ts).length) + 1)
      ["add".toList] false (if s.isMonitoring then s.setAutoUpdate false else s)
      (by simp only [List.length_cons]; omega)
    simp only [doCommand, Arguments.ofTokens, Arguments.next, commandOf_add,
      Bool.false_eq_true, if_false, String.toList, Arguments.atEnd, List.isEmpty_cons] at ha ⊢
    simp only [ha]
    cases hm : s.isMonitoring <;>
      simp [ClipboardServer.isMonitoring, ClipboardServer.setAutoUpdate, ClipboardServer.call,
        hm] <;> simp_all [ClipboardServer.isMonitoring]
  · simp [doCommand, Arguments.ofTokens, Arguments.next, commandOf_add, Arguments.atEnd]

/-- C15: `select` calls `moveToClipboard(0)` once and `select n` calls
`moveToClipboard(n)` once, both succeeding; with a further token after the
row, or with a first argument that is no integer, `doCommand` fails with the
server unchanged, so without `moveToClipboard`. -/
theorem select_command (s : ClipboardServer) (response : Str) :
    doCommand s (Arguments.ofTokens ["select".toList]) response
      = some (true, response, s.call (Call.moveToClipboard 0))
    ∧ (∀ t n, parseInt t = some n →
        doCommand s (Arguments.ofTokens ["select".toList, t]) response
          = some (true, response, s.call (Call.moveToClipboard n)))
    ∧ (∀ t n u more, parseInt t = some n →
        doCommand s (Arguments.ofTokens ("select".toList :: t :: u :: more)) response
          = some (false, response, s))
    ∧ (∀ t more, parseInt t = none →
        doCommand s (Arguments.ofTokens ("select".toList :: t :: more)) response
          = some (false, response, s)) := by
  refine ⟨?_, ?_, ?_, ?_⟩
  · simp [doCommand, Arguments.ofTokens, Arguments.next, commandOf_select, Arguments.readIntD,
      Arguments.finished]
  · intro t n h
    simp [doCommand, Arguments.ofTokens, Arguments.next, commandOf_select, Arguments.readIntD,
      Arguments.finished, h]
  · intro t n u more h
    simp [doCommand, Arguments.ofTokens, Arguments.next, commandOf_select, Arguments.readIntD,
      Arguments.finished, h]
  · intro t more h
    simp [doCommand, Arguments.ofTokens, Arguments.next, commandOf_select, Arguments.readIntD,
      Arguments.finished, h]

/-- C17, amended: for a request with `N ≥ 1` pairs, `_write` issues
`setAutoUpdate(false)`, `add`, `setAutoUpdate(true)` in this order when a
worker is monitored and only the `add` when none is; `write` with the same
arguments issues only the `add`; the item added is the same in all cases. -/
theorem write_noupdate_suspends (s : ClipboardServer) (pairs : List (Str × Str))
    (response : Str) (hN : pairs ≠ []) :
    (s.isMonitoring = true →
      doCommand s (Arguments.ofTokens ("_write".toList :: pairTokens pairs)) response
        = some (true, response,
            ((s.setAutoUpdate false).call (Call.addData (writtenItem pairs))).setAutoUpdate true))
    ∧ (((s.setAutoUpdate false).call (Call.addData (writtenItem pairs))).setAutoUpdate true).calls
        = s.calls ++ [Call.setAutoUpdate false, Call.addData (writtenItem pairs),
            Call.setAutoUpdate true]
    ∧ (s.isMonitoring = false →
      doCommand s (Arguments.ofTokens ("_write".toList :: pairTokens pairs)) response
        = some (true, response, s.call (Call.addData (writtenItem pairs))))
    ∧ doCommand s (Arguments.ofTokens ("write".toList :: pairTokens pairs)) response
        = some (true, response, s.call (Call.addData (writtenItem pairs)))
    ∧ (s.call (Call.addData (writtenItem pairs))).calls
        = s.calls ++ [Call.addData (writtenItem pairs)] := by
  refine ⟨?_, ?_, ?_, ?_, rfl⟩
  · intro hm
    simp [doCommand, Arguments.ofTokens, Arguments.next, commandOf_writeNoUpdate,
      doWrite_pairs, hN, hm]
  · simp [ClipboardServer.setAutoUpdate, ClipboardServer.call]
  · intro hm
    simp [doCommand, Arguments.ofTokens, Arguments.next, commandOf_writeNoUpdate,
      doWrite_pairs, hN, hm]
  · simp [doCommand, Arguments.ofTokens, Arguments.next, commandOf_write, doWrite_pairs, hN]

/-- C17, as stated, fails: on the idle server `_write a X` issues the `add`
alone, without `setAutoUpdate(false)` before and `setAutoUpdate(true)` after. -/
theorem write_noupdate_idle_counterexample :
    doCommand (idleServer fiveItems)
        (Arguments.ofTokens ["_write".toList, "a".toList, "X".toList]) []
      = some (true, [], (idleServer fiveItems).call (Call.addData [("a".toList, "X".toList)]))
    ∧ ((idleServer fiveItems).call (Call.addData [("a".toList, "X".toList)])).calls
      = [Call.addData [("a".toList, "X".toList)]]
    ∧ [Call.addData [("a".toList, "X".toList)]]
      ≠ [Call.setAutoUpdate false, Call.addData [("a".toList, "X".toList)],
          Call.setAutoUpdate true] :=
  ⟨rfl, rfl, by decide⟩

/-- Witness for C15: `select 3` and `select x`. -/
theorem select_command_witness :
    parseInt "3".toList = some 3 ∧ parseInt "x".toList = none
    ∧ doCommand (sampleServer fiveItems) (Arguments.ofTokens ["select".toList, "3".toList]) []
        = some (true, [], (sampleServer fiveItems).call (Call.moveToClipboard 3))
    ∧ doCommand (sampleServer fiveItems) (Arguments.ofTokens ["select".toList, "x".toList]) []
        = some (false, [], sampleServer fiveItems) :=
  ⟨by decide, by decide,
    (select_command (sampleServer fiveItems) []).2.1 "3".toList 3 (by decide),
    (select_command (sampleServer fiveItems) []).2.2.2 "x".toList [] (by decide)⟩

/-- Witness for C17 (amended): `_write a X` on the monitoring sample server. -/
theorem write_noupdate_suspends_witness :
    [("a".toList, "X".toList)] ≠ ([] : List (Str × Str))
    ∧ (sampleServer fiveItems).isMonitoring = true
    ∧ doCommand (sampleServer fiveItems)
        (Arguments.ofTokens ["_write".toList, "a".toList, "X".toList]) []
      = some (true, [],
          (((sampleServer fiveItems).setAutoUpdate false).call
            (Call.addData [("a".toList, "X".toList)])).setAutoUpdate true) :=
  ⟨by decide, rfl,
    (write_noupdate_suspends (sampleServer fiveItems) [("a".toList, "X".toList)] []
      (by decide)).1 rfl⟩

/-! ## The `read` command -/

theorem commandOf_read : commandOf ['r', 'e', 'a', 'd'] = Command.Cmd_Read := by decide

theorem readLoop_spec (c : Browser) (fuel : Nat) :
    ∀ (consumed : List Str) (t : Str) (ts : List Str) (mime response : Str),
      (t :: ts).length ≤ fuel →
      ∃ a, readLoop c fuel ⟨consumed, t :: ts, false⟩ mime response
        = some (a, response ++ readSpec c mime (t :: ts)) := by
  induction fuel with
  | zero => intro _ _ _ _ _ h; simp at h
  | succ fuel ih =>
    intro consumed t ts mime response h
    cases ts with
    | nil =>
      cases hp : parseInt t with
      | none =>
        exact ⟨_, by simp [readLoop, Arguments.readInt, hp, Arguments.back, Arguments.next,
          Arguments.readIntD, Arguments.atEnd, readSpec]; rfl⟩
      | some n =>
        exact ⟨_, by simp [readLoop, Arguments.readInt, hp, Arguments.atEnd, readSpec]; rfl⟩
    | cons u us =>
      have hlen : (u :: us).length ≤ fuel := by simpa using h
      cases hp : parseInt t with
      | some n =>
        obtain ⟨a, ha⟩ := ih (t :: consumed) u us mime (response ++ c.itemData n mime) hlen
        refine ⟨a, ?_⟩
        rw [readSpec]
        simp only [hp]
        simpa [readLoop, Arguments.readInt, hp, Arguments.atEnd, List.append_assoc] using ha
      | none =>
        cases hu : parseInt u with
        | none =>
          obtain ⟨a, ha⟩ := ih (t :: consumed) u us t (response ++ c.itemData 0 t) hlen
          refine ⟨a, ?_⟩
          rw [readSpec]
          simp only [hp, hu]
          simpa [readLoop, Arguments.readInt, hp, Arguments.back, Arguments.next,
            Arguments.readIntD, hu, Arguments.atEnd, List.append_assoc] using ha
        | some m =>
          cases us with
          | nil =>
            exact ⟨_, by simp [readLoop, Arguments.readInt, hp, Arguments.back,
              Arguments.next, Arguments.readIntD, hu, Arguments.atEnd, readSpec]; rfl⟩
          | cons v vs =>
            have hlen' : (v :: vs).length ≤ fuel := by
              simp only [List.length_cons] at hlen ⊢; omega
            obtain ⟨a, ha⟩ := ih (u :: t :: consumed) v vs t (response ++ c.itemData m t) hlen'
            refine ⟨a, ?_⟩
            have e1 : readSpec c t (u :: v :: vs) = c.itemData m t ++ readSpec c t (v :: vs) := by
              rw [readSpec]
              simp only [hu]
            have e2 : readSpec c mime (t :: u :: v :: vs) = readSpec c t (u :: v :: vs) := by
              rw [readSpec]
              simp only [hp, hu, Option.isSome_some, if_true, List.nil_append]
            rw [e2, e1]
            simpa [readLoop, Arguments.readInt, hp, Arguments.back, Arguments.next,
              Arguments.readIntD, hu, Arguments.atEnd, List.append_assoc] using ha

/-- C13: `read` without argument answers the `text/plain` payload of row 0;
with arguments the response is, in request order, the payload of each
row-index token under the most recent MIME-type token before it
(`text/plain` when there is none), a MIME-type token that is not immediately
followed by a row index contributing row 0 under that type. -/
theorem read_command (s : ClipboardServer) (response : Str) :
    doCommand s (Arguments.ofTokens ["read".toList]) response
      = some (true, s.browser.itemData 0 "text/plain".toList, s)
    ∧ (∀ t ts, doCommand s (Arguments.ofTokens ("read".toList :: t :: ts)) response
        = some (true, response ++ readSpec s.browser "text/plain".toList (t :: ts), s)) := by
  constructor
  · simp [doCommand, Arguments.ofTokens, Arguments.next, commandOf_read, Arguments.atEnd]
  · intro t ts
    obtain ⟨a, ha⟩ := readLoop_spec s.browser (("read".toList :: t :: ts).length + 1)
      ["read".toList] t ts "text/plain".toList response
      (by simp only [List.length_cons]; omega)
    simp only [doCommand, Arguments.ofTokens, Arguments.next, commandOf_read, String.toList,
      Bool.false_eq_true, if_false, Arguments.atEnd, List.isEmpty_cons] at ha ⊢
    simp only [ha]

/-! ## The `action` command -/

theorem commandOf_action :
    commandOf ['a', 'c', 't', 'i', 'o', 'n'] = Command.Cmd_Action := by decide

theorem actionRows_end (ints : List Str) (rows : List Int)
    (h : List.Forall₂ (fun t r => parseInt t = some r) ints rows) :
    ∀ (fuel : Nat) (consumed : List Str) (s : ClipboardServer), ints.length < fuel →
      ∃ cs, actionRows fuel ⟨consumed, ints, false⟩ s
        = some (⟨cs, [], false⟩,
            { s with calls := s.calls ++ rows.map (fun x => Call.setCurrent x true) }) := by
  induction h with
  | nil =>
    intro fuel consumed s hf
    cases fuel with
    | zero => simp at hf
    | succ fuel => exact ⟨consumed, by simp [actionRows, Arguments.finished]⟩
  | @cons t r ts rs hr _ ih =>
    intro fuel consumed s hf
    cases fuel with
    | zero => simp at hf
    | succ fuel =>
      obtain ⟨cs, hcs⟩ := ih fuel (t :: consumed) (s.call (Call.setCurrent r true))
        (by simpa using hf)
      refine ⟨cs, ?_⟩
      simpa [actionRows, Arguments.finished, Arguments.readInt, hr, ClipboardServer.call]
        using hcs

theorem actionRows_stop (ints : List Str) (rows : List Int)
    (h : List.Forall₂ (fun t r => parseInt t = some r) ints rows) :
    ∀ (fuel : Nat) (consumed : List Str) (s : ClipboardServer) (c : Str) (more : List Str),
      parseInt c = none → ints.length < fuel →
      ∃ cs, actionRows fuel ⟨consumed, ints ++ c :: more, false⟩ s
        = some (⟨c :: cs, more, true⟩,
            { s with calls := s.calls ++ rows.map (fun x => Call.setCurrent x true) }) := by
  induction h with
  | nil =>
    intro fuel consumed s c more hc hf
    cases fuel with
    | zero => simp at hf
    | succ fuel =>
      exact ⟨consumed, by simp [actionRows, Arguments.finished, Arguments.readInt, hc]⟩
  | @cons t r ts rs hr _ ih =>
    intro fuel consumed s c more hc hf
    cases fuel with
    | zero => simp at hf
    | succ fuel =>
      obtain ⟨cs, hcs⟩ := ih fuel (t :: consumed) (s.call (Call.setCurrent r true)) c more hc
        (by simpa using hf)
      refine ⟨cs, ?_⟩
      simpa [actionRows, Arguments.finished, Arguments.readInt, hr, ClipboardServer.call]
        using hcs

theorem action_dialog (s : ClipboardServer) (ints : List Str) (rows : List Int)
    (response : Str) (h : List.Forall₂ (fun t r => parseInt t = some r) ints rows) :
    doCommand s (Arguments.ofTokens ("action".toList :: ints)) response
      = some (true, response,
          { s with calls := s.calls ++ selectionCalls rows ++ [Call.openActionDialog (-1)] }) := by
  cases h with
  | nil =>
    simp [doCommand, Arguments.ofTokens, Arguments.next, commandOf_action, Arguments.readIntD,
      actionRows, Arguments.finished, selectionCalls, ClipboardServer.call]
  | @cons t r ts rs hr hrest =>
    obtain ⟨cs, hcs⟩ := actionRows_end ts rs hrest (("action".toList :: t :: ts).length + 1)
      [t, "action".toList] (s.call (Call.setCurrent r false))
      (by simp only [List.length_cons]; omega)
    simp only [doCommand, Arguments.ofTokens, Arguments.next, commandOf_action, String.toList,
      Bool.false_eq_true, if_false, Arguments.readIntD, hr] at hcs ⊢
    simp only [hcs]
    simp [selectionCalls, ClipboardServer.call]

theorem action_run (s : ClipboardServer) (ints : List Str) (rows : List Int)
    (response c : Str) (more : List Str)
    (h : List.Forall₂ (fun t r => parseInt t = some r) ints rows) (hc : parseInt c = none) :
    doCommand s (Arguments.ofTokens ("action".toList :: ints ++ c :: more)) response
      = match more with
        | [] => some (true, response, { s with calls := s.calls ++ selectionCalls rows
            ++ [Call.action (-1) c "\n".toList true true false] })
        | [sep] => some (true, response, { s with calls := s.calls ++ selectionCalls rows
            ++ [Call.action (-1) c sep true true false] })
        | _ :: _ :: _ => some (false, response,
            { s with calls := s.calls ++ selectionCalls rows }) := by
  cases h with
  | nil =>
    obtain ⟨cs, hcs⟩ := actionRows_stop [] [] List.Forall₂.nil
      (("action".toList :: c :: more).length + 1)
      ["action".toList] (s.call (Call.setCurrent 0 false)) c more hc
      (by simp only [List.length_cons, List.length_nil]; omega)
    simp only [doCommand, Arguments.ofTokens, Arguments.next, commandOf_action, String.toList,
      Bool.false_eq_true, if_false, Arguments.readIntD, hc, List.nil_append,
      List.cons_append] at hcs ⊢
    simp only [hcs]
    match more with
    | [] => simp [Arguments.back, Arguments.next, Arguments.nextD, Arguments.finished,
        selectionCalls, ClipboardServer.call]
    | [sep] => simp [Arguments.back, Arguments.next, Arguments.nextD, Arguments.finished,
        selectionCalls, ClipboardServer.call]
    | sep :: x :: xs => simp [Arguments.back, Arguments.next, Arguments.nextD,
        Arguments.finished, selectionCalls, ClipboardServer.call]
  | @cons t r ts rs hr hrest =>
    obtain ⟨cs, hcs⟩ := actionRows_stop ts rs hrest
      (("action".toList :: (t :: ts) ++ c :: more).length + 1)
      [t, "action".toList] (s.call (Call.setCurrent r false)) c more hc
      (by simp only [List.length_cons, List.length_append, List.cons_append]; omega)
    simp only [doCommand, Arguments.ofTokens, Arguments.next, commandOf_action, String.toList,
      Bool.false_eq_true, if_false, Arguments.readIntD, hr, List.cons_append] at hcs ⊢
    simp only [hcs]
    match more with
    | [] => simp [Arguments.back, Arguments.next, Arguments.nextD, Arguments.finished,
        selectionCalls, ClipboardServer.call]
    | [sep] => simp [Arguments.back, Arguments.next, Arguments.nextD, Arguments.finished,
        selectionCalls, ClipboardServer.call]
    | sep :: x :: xs => simp [Arguments.back, Arguments.next, Arguments.nextD,
        Arguments.finished, selectionCalls, ClipboardServer.call]

theorem tokens_rows_split (tokens : List Str) :
    ∃ ints rows, List.Forall₂ (fun t r => parseInt t = some r) ints rows
      ∧ (tokens = ints ∨ ∃ c more, parseInt c = none ∧ tokens = ints ++ c :: more) := by
  induction tokens with
  | nil => exact ⟨[], [], List.Forall₂.nil, Or.inl rfl⟩
  | cons t ts ih =>
    cases hp : parseInt t with
    | none => exact ⟨[], [], List.Forall₂.nil, Or.inr ⟨t, ts, hp, rfl⟩⟩
    | some r =>
      obtain ⟨ints, rows, h, hsplit⟩ := ih
      refine ⟨t :: ints, r :: rows, List.Forall₂.cons hp h, ?_⟩
      rcases hsplit with h1 | ⟨c, more, hc, h1⟩
      · exact Or.inl (by rw [h1])
      · exact Or.inr ⟨c, more, hc, by rw [h1]; rfl⟩

theorem selectionCalls_setCurrent (rows : List Int) :
    ∀ x ∈ selectionCalls rows, ∃ r e, x = Call.setCurrent r e := by
  intro x hx
  cases rows with
  | nil =>
    simp only [selectionCalls, List.mem_singleton] at hx
    exact ⟨0, false, hx⟩
  | cons r rs =>
    simp only [selectionCalls, List.mem_cons, List.mem_map] at hx
    rcases hx with hx | ⟨y, _, hy⟩
    · exact ⟨r, false, hx⟩
    · exact ⟨y, true, hy.symm⟩

/-- C16, amended: every `action` request splits into leading integer tokens
(the rows) and a remainder, and has exactly one of four outcomes, none of
which runs both branches.  With no remainder the dialog is opened; with a
remainder of one token `c`, or two tokens `c sep`, the action `c` is run
non-interactively (input and output captured, no wait) with separator `\n`
or `sep`; with a longer remainder `doCommand` fails and neither branch runs.
Before that only the rows are selected. -/
theorem action_command (s : ClipboardServer) (tokens : List Str) (response : Str) :
    ∃ ints rows, List.Forall₂ (fun t r => parseInt t = some r) ints rows
      ∧ (∀ x ∈ selectionCalls rows, ∃ r e, x = Call.setCurrent r e)
      ∧ ((tokens = ints
          ∧ doCommand s (Arguments.ofTokens ("action".toList :: tokens)) response
            = some (true, response, { s with calls := s.calls ++ selectionCalls rows
                ++ [Call.openActionDialog (-1)] }))
        ∨ (∃ c, parseInt c = none ∧ tokens = ints ++ [c]
          ∧ doCommand s (Arguments.ofTokens ("action".toList :: tokens)) response
            = some (true, response, { s with calls := s.calls ++ selectionCalls rows
                ++ [Call.action (-1) c "\n".toList true true false] }))
        ∨ (∃ c sep, parseInt c = none ∧ tokens = ints ++ [c, sep]
          ∧ doCommand s (Arguments.ofTokens ("action".toList :: tokens)) response
            = some (true, response, { s with calls := s.calls ++ selectionCalls rows
                ++ [Call.action (-1) c sep true true false] }))
        ∨ (∃ c sep x more, parseInt c = none ∧ tokens = ints ++ c :: sep :: x :: more
          ∧ doCommand s (Arguments.ofTokens ("action".toList :: tokens)) response
            = some (false, response, { s with calls := s.calls ++ selectionCalls rows }))) := by
  obtain ⟨ints, rows, h, hsplit⟩ := tokens_rows_split tokens
  refine ⟨ints, rows, h, selectionCalls_setCurrent rows, ?_⟩
  rcases hsplit with h1 | ⟨c, more, hc, h1⟩
  · subst h1
    exact Or.inl ⟨rfl, action_dialog s _ rows response h⟩
  · subst h1
    have hrun := action_run s ints rows response c more h hc
    match more, hrun with
    | [], hrun => exact Or.inr (Or.inl ⟨c, hc, rfl, hrun⟩)
    | [sep], hrun => exact Or.inr (Or.inr (Or.inl ⟨c, sep, hc, rfl, hrun⟩))
    | sep :: x :: xs, hrun => exact Or.inr (Or.inr (Or.inr ⟨c, sep, x, xs, hc, rfl, hrun⟩))

/-- C16, as stated, fails: in `action cmd a b c` the token `cmd` is no
integer, yet `doCommand` returns false after selecting row 0: neither the
dialog is opened nor the action run. -/
theorem action_neither_branch_counterexample :
    parseInt "cmd".toList = none
    ∧ doCommand (sampleServer fiveItems)
        (Arguments.ofTokens ["action".toList, "cmd".toList, "a".toList, "b".toList, "c".toList])
        []
      = some (false, [], { sampleServer fiveItems with calls := [Call.setCurrent 0 false] }) :=
  ⟨by decide, rfl⟩

/-! ## Escalation order of `stopMonitoring` -/

theorem closeConnection_calls (p : Nat) (s : ClipboardServer) :
    (closeConnection p s).1.calls = s.calls ++ closeCalls p s.m_socket
    ∧ (closeConnection p s).2 = closedSteps s.m_socket := by
  cases h : s.m_socket with
  | none => simp [closeConnection, h, closeCalls, closedSteps]
  | some sock => simp [closeConnection, h, closeCalls, closedSteps, ClipboardServer.call]

theorem shutdownWorker_shapes (w : Worker) (p : Nat) (s : ClipboardServer) :
    (w [] = ProcessState.NotRunning
      ∧ (shutdownWorker w p s).1.calls = s.calls ∧ (shutdownWorker w p s).2 = [])
    ∨ (w [] ≠ ProcessState.NotRunning
      ∧ w (closedSteps s.m_socket) = ProcessState.NotRunning
      ∧ (shutdownWorker w p s).1.calls
          = s.calls ++ [Call.log "Clipboard Monitor: Terminating".toList LogLevel.LogNote]
            ++ closeCalls p s.m_socket
      ∧ (shutdownWorker w p s).2 = closedSteps s.m_socket)
    ∨ (w [] ≠ ProcessState.NotRunning
      ∧ w (closedSteps s.m_socket) ≠ ProcessState.NotRunning
      ∧ w (closedSteps s.m_socket ++ [Signal.terminated]) = ProcessState.NotRunning
      ∧ (shutdownWorker w p s).1.calls
          = s.calls ++ [Call.log "Clipboard Monitor: Terminating".toList LogLevel.LogNote]
            ++ closeCalls p s.m_socket
            ++ [Call.log "Clipboard Monitor: Command 'exit' unsucessful!".toList
                  LogLevel.LogError,
                Call.processTerminate p, Call.processWaitForFinished p 1000]
      ∧ (shutdownWorker w p s).2 = closedSteps s.m_socket ++ [Signal.terminated])
    ∨ (w [] ≠ ProcessState.NotRunning
      ∧ w (closedSteps s.m_socket) ≠ ProcessState.NotRunning
      ∧ w (closedSteps s.m_socket ++ [Signal.terminated]) ≠ ProcessState.NotRunning
      ∧ w (closedSteps s.m_socket ++ [Signal.terminated, Signal.killed])
          = ProcessState.NotRunning
      ∧ (shutdownWorker w p s).1.calls
          = s.calls ++ [Call.log "Clipboard Monitor: Terminating".toList LogLevel.LogNote]
            ++ closeCalls p s.m_socket
            ++ [Call.log "Clipboard Monitor: Command 'exit' unsucessful!".toList
                  LogLevel.LogError,
                Call.processTerminate p, Call.processWaitForFinished p 1000]
            ++ [Call.log "Clipboard Monitor: Cannot terminate process!".toList
                  LogLevel.LogError,
                Call.processKill p]
      ∧ (shutdownWorker w p s).2
          = closedSteps s.m_socket ++ [Signal.terminated, Signal.killed])
    ∨ (w [] ≠ ProcessState.NotRunning
      ∧ w (closedSteps s.m_socket) ≠ ProcessState.NotRunning
      ∧ w (closedSteps s.m_socket ++ [Signal.terminated]) ≠ ProcessState.NotRunning
      ∧ w (closedSteps s.m_socket ++ [Signal.terminated, Signal.killed])
          ≠ ProcessState.NotRunning
      ∧ (shutdownWorker w p s).1.calls
          = s.calls ++ [Call.log "Clipboard Monitor: Terminating".toList LogLevel.LogNote]
            ++ closeCalls p s.m_socket
            ++ [Call.log "Clipboard Monitor: Command 'exit' unsucessful!".toList
                  LogLevel.LogError,
                Call.processTerminate p, Call.processWaitForFinished p 1000]
            ++ [Call.log "Clipboard Monitor: Cannot terminate process!".toList
                  LogLevel.LogError,
                Call.processKill p,
                Call.log "Clipboard Monitor: Cannot kill process!!!".toList LogLevel.LogError]
      ∧ (shutdownWorker w p s).2
          = closedSteps s.m_socket ++ [Signal.terminated, Signal.killed]) := by
  obtain ⟨hcc, hcs⟩ := closeConnection_calls p
    (s.call (Call.log "Clipboard Monitor: Terminating".toList LogLevel.LogNote))
  simp only [ClipboardServer.call] at hcc hcs
  by_cases h0 : w [] = ProcessState.NotRunning
  · left
    refine ⟨h0, ?_, ?_⟩ <;> simp only [shutdownWorker, h0, ne_eq, not_true_eq_false, if_false]
  · right
    by_cases h1 : w (closedSteps s.m_socket) = ProcessState.NotRunning
    · left
      refine ⟨h0, h1, ?_, ?_⟩ <;>
        simp only [shutdownWorker, ClipboardServer.call, h0, ne_eq, not_false_eq_true, if_true,
          hcs, h1, not_true_eq_false, if_false, hcc]
    · right
      by_cases h2 : w (closedSteps s.m_socket ++ [Signal.terminated]) = ProcessState.NotRunning
      · left
        refine ⟨h0, h1, h2, ?_, ?_⟩ <;>
          simp only [shutdownWorker, ClipboardServer.call, h0, ne_eq, not_false_eq_true, if_true,
            hcs, h1, h2, not_true_eq_false, if_false, hcc, List.append_assoc,
            List.singleton_append, List.cons_append, List.nil_append]
      · right
        by_cases h3 : w (closedSteps s.m_socket ++ [Signal.terminated, Signal.killed])
            = ProcessState.NotRunning
        · left
          refine ⟨h0, h1, h2, h3, ?_, ?_⟩ <;>
            simp only [shutdownWorker, ClipboardServer.call, h0, ne_eq, not_false_eq_true, if_true,
              hcs, h1, h2, h3, not_true_eq_false, if_false, hcc, List.append_assoc,
              List.singleton_append, List.cons_append, List.nil_append]
        · right
          refine ⟨h0, h1, h2, h3, ?_, ?_⟩ <;>
            simp only [shutdownWorker, ClipboardServer.call, h0, ne_eq, not_false_eq_true, if_true,
              hcs, h1, h2, h3, not_true_eq_false, if_false, hcc, List.append_assoc,
              List.singleton_append, List.cons_append, List.nil_append]

theorem closeCalls_no_signal (p : Nat) (sock : Option Nat) (q : Nat) :
    Call.processTerminate q ∉ closeCalls p sock ∧ Call.processKill q ∉ closeCalls p sock := by
  cases sock <;> simp [closeCalls]

theorem stopMonitoring_calls (w : Worker) (s : ClipboardServer) (p : Nat)
    (hp : s.m_monitor = some p) :
    (stopMonitoring w s).calls
      = (shutdownWorker w p (s.call (Call.processDisconnect p))).1.calls
        ++ (if w (shutdownWorker w p (s.call (Call.processDisconnect p))).2
              = ProcessState.NotRunning
            then [Call.log "Clipboard Monitor: Terminated".toList LogLevel.LogNote] else [])
        ++ [Call.processDeleteLater p, Call.setAutoUpdate false] := by
  rw [stopMonitoring_of_handle w s p hp]
  simp only [releaseMonitor, ClipboardServer.setAutoUpdate, ClipboardServer.call]
  split_ifs <;> simp

/-- C18: in every run of `stopMonitoring` with a handle `p` held, `terminate`
is sent (to `p` only) only if the worker is not `NotRunning` on entry and
still not after the connection, if one was open, was closed and waited on,
and it comes after those calls; `kill` is sent (to `p` only) only if the
worker is still not `NotRunning` after `terminate`, and it comes after
`terminate` and the wait that follows it; when the worker is `NotRunning` on
entry the calls are the disconnect of the signal, the log, `deleteLater` and
`setAutoUpdate(false)`, so no close, terminate or kill; without handle the
only call is `setAutoUpdate(false)`. -/
theorem stop_escalation (w : Worker) (s : ClipboardServer) :
    (∀ p, s.m_monitor = some p →
      ∃ added, (stopMonitoring w s).calls = s.calls ++ added
        ∧ (∀ q, Call.processTerminate q ∈ added →
            q = p ∧ w [] ≠ ProcessState.NotRunning
            ∧ w (closedSteps s.m_socket) ≠ ProcessState.NotRunning
            ∧ ∃ a b, added = a ++ closeCalls p s.m_socket ++ b
                ∧ Call.processTerminate p ∈ b
                ∧ ∀ x, Call.processTerminate x ∉ a ++ closeCalls p s.m_socket)
        ∧ (∀ q, Call.processKill q ∈ added →
            q = p
            ∧ w (closedSteps s.m_socket ++ [Signal.terminated]) ≠ ProcessState.NotRunning
            ∧ ∃ a b, added = a ++ [Call.processTerminate p, Call.processWaitForFinished p 1000]
                  ++ b
                ∧ Call.processKill p ∈ b
                ∧ ∀ x, Call.processKill x
                    ∉ a ++ [Call.processTerminate p, Call.processWaitForFinished p 1000])
        ∧ (w [] = ProcessState.NotRunning →
            added = [Call.processDisconnect p,
              Call.log "Clipboard Monitor: Terminated".toList LogLevel.LogNote,
              Call.processDeleteLater p, Call.setAutoUpdate false]))
    ∧ (s.m_monitor = none → (stopMonitoring w s).calls = s.calls ++ [Call.setAutoUpdate false]) := by
  constructor
  · intro p hp
    have hT := fun q => (closeCalls_no_signal p s.m_socket q).1
    have hK := fun q => (closeCalls_no_signal p s.m_socket q).2
    have key := stopMonitoring_calls w s p hp
    have hsock : (s.call (Call.processDisconnect p)).m_socket = s.m_socket := rfl
    have hcalls : (s.call (Call.processDisconnect p)).calls
        = s.calls ++ [Call.processDisconnect p] := rfl
    rcases shutdownWorker_shapes w p (s.call (Call.processDisconnect p)) with
      ⟨h0, hc, hs⟩ | ⟨h0, h1, hc, hs⟩ | ⟨h0, h1, h2, hc, hs⟩ | ⟨h0, h1, h2, h3, hc, hs⟩ |
      ⟨h0, h1, h2, h3, hc, hs⟩
    · rw [hc, hs, hcalls, if_pos h0] at key
      refine ⟨_, by rw [key]; simp only [List.append_assoc]; rfl, ?_, ?_, ?_⟩
      · intro q hq; simp at hq
      · intro q hq; simp at hq
      · intro _; rfl
    · rw [hsock] at h1 hc hs
      rw [hc, hs, hcalls, if_pos h1] at key
      refine ⟨_, by rw [key]; simp only [List.append_assoc]; rfl, ?_, ?_, ?_⟩
      · intro q hq
        simp [hT] at hq
      · intro q hq
        simp [hK] at hq
      · intro h; exact absurd h h0
    · rw [hsock] at h1 h2 hc hs
      rw [hc, hs, hcalls, if_pos h2] at key
      refine ⟨_, by rw [key]; simp only [List.append_assoc]; rfl, ?_, ?_, ?_⟩
      · intro q hq
        simp [hT] at hq
        refine ⟨hq, h0, h1, [Call.processDisconnect p,
          Call.log "Clipboard Monitor: Terminating".toList LogLevel.LogNote], _, rfl, ?_, ?_⟩
        · simp
        · intro x; simp [hT]
      · intro q hq
        simp [hK] at hq
      · intro h; exact absurd h h0
    · rw [hsock] at h1 h2 h3 hc hs
      rw [hc, hs, hcalls, if_pos h3] at key
      refine ⟨_, by rw [key]; simp only [List.append_assoc]; rfl, ?_, ?_, ?_⟩
      · intro q hq
        simp [hT] at hq
        refine ⟨hq, h0, h1, [Call.processDisconnect p,
          Call.log "Clipboard Monitor: Terminating".toList LogLevel.LogNote], _, rfl, ?_, ?_⟩
        · simp
        · intro x; simp [hT]
      · intro q hq
        simp [hK] at hq
        refine ⟨hq, h2, [Call.processDisconnect p,
          Call.log "Clipboard Monitor: Terminating".toList LogLevel.LogNote]
          ++ closeCalls p s.m_socket
          ++ [Call.log "Clipboard Monitor: Command 'exit' unsucessful!".toList
            LogLevel.LogError], _, by simp only [List.append_assoc]; rfl, ?_, ?_⟩
        · simp
        · intro x; simp [hK]
      · intro h; exact absurd h h0
    · rw [hsock] at h1 h2 h3 hc hs
      rw [hc, hs, hcalls, if_neg h3] at key
      refine ⟨_, by rw [key]; simp only [List.append_assoc]; rfl, ?_, ?_, ?_⟩
      · intro q hq
        simp [hT] at hq
        refine ⟨hq, h0, h1, [Call.processDisconnect p,
          Call.log "Clipboard Monitor: Terminating".toList LogLevel.LogNote], _, rfl, ?_, ?_⟩
        · simp
        · intro x; simp [hT]
      · intro q hq
        simp [hK] at hq
        refine ⟨hq, h2, [Call.processDisconnect p,
          Call.log "Clipboard Monitor: Terminating".toList LogLevel.LogNote]
          ++ closeCalls p s.m_socket
          ++ [Call.log "Clipboard Monitor: Command 'exit' unsucessful!".toList
            LogLevel.LogError], _, by simp only [List.append_assoc]; rfl, ?_, ?_⟩
        · simp
        · intro x; simp [hK]
      · intro h; exact absurd h h0
  · intro h
    rw [stopMonitoring_of_idle w s h]
    rfl


/-- Witness for C18: the sample server with a worker that exits on
`terminate`; the calls of the run are listed. -/
theorem stop_escalation_witness :
    (sampleServer fiveItems).m_monitor = some 0
    ∧ (∃ added, (stopMonitoring terminableWorker (sampleServer fiveItems)).calls
        = (sampleServer fiveItems).calls ++ added)
    ∧ (stopMonitoring terminableWorker (sampleServer fiveItems)).calls
        = [Call.processDisconnect 0,
            Call.log "Clipboard Monitor: Terminating".toList LogLevel.LogNote,
            Call.socketDisconnect 1, Call.socketDeleteLater 1,
            Call.processWaitForFinished 0 1000,
            Call.log "Clipboard Monitor: Command 'exit' unsucessful!".toList LogLevel.LogError,
            Call.processTerminate 0, Call.processWaitForFinished 0 1000,
            Call.log "Clipboard Monitor: Terminated".toList LogLevel.LogNote,
            Call.processDeleteLater 0, Call.setAutoUpdate false] :=
  ⟨rfl,
    Exists.imp (fun _ h => h.1)
      ((stop_escalation terminableWorker (sampleServer fiveItems)).1 0 rfl),
    by decide⟩

/-! ## Effects of `doCommand` on the server -/

theorem actionRows_frame (fuel : Nat) :
    ∀ (args a : Arguments) (s s' : ClipboardServer), actionRows fuel args s = some (a, s') →
      s'.m_monitor = s.m_monitor ∧ s'.m_socket = s.m_socket ∧ s'.nextId = s.nextId
      ∧ s'.browser = s.browser
      ∧ ∃ added, s'.calls = s.calls ++ added ∧ ∀ x ∈ added, ∃ r e, x = Call.setCurrent r e := by
  induction fuel with
  | zero => intro args a s s' h; simp [actionRows] at h
  | succ fuel ih =>
    intro args a s s' h
    rw [actionRows] at h
    simp only [] at h
    split_ifs at h with h1 h2
    · simp only [Option.some.injEq, Prod.mk.injEq] at h
      obtain ⟨_, rfl⟩ := h
      exact ⟨rfl, rfl, rfl, rfl, [], by simp, by simp⟩
    · simp only [Option.some.injEq, Prod.mk.injEq] at h
      obtain ⟨_, rfl⟩ := h
      exact ⟨rfl, rfl, rfl, rfl, [], by simp, by simp⟩
    · obtain ⟨hm, hs, hn, hb, added, hc, hall⟩ := ih _ _ _ _ h
      refine ⟨hm, hs, hn, hb, Call.setCurrent args.readInt.1 true :: added, ?_, ?_⟩
      · rw [hc]; simp [ClipboardServer.call]
      · intro x hx
        rcases List.mem_cons.mp hx with hx | hx
        · exact ⟨_, _, hx⟩
        · exact hall x hx

theorem selectRows_frame (fuel : Nat) :
    ∀ (args a : Arguments) (s s' : ClipboardServer) (ok : Bool),
      selectRows fuel args s = some (ok, a, s') →
      s'.m_monitor = s.m_monitor ∧ s'.m_socket = s.m_socket ∧ s'.nextId = s.nextId
      ∧ s'.browser = s.browser
      ∧ ∃ added, s'.calls = s.calls ++ added ∧ ∀ x ∈ added, ∃ r e, x = Call.setCurrent r e := by
  induction fuel with
  | zero => intro args a s s' ok h; simp [selectRows] at h
  | succ fuel ih =>
    intro args a s s' ok h
    rw [selectRows] at h
    simp only [] at h
    split_ifs at h with h1 h2
    · simp only [Option.some.injEq, Prod.mk.injEq] at h
      obtain ⟨_, _, rfl⟩ := h
      exact ⟨rfl, rfl, rfl, rfl, [], by simp, by simp⟩
    · simp only [Option.some.injEq, Prod.mk.injEq] at h
      obtain ⟨_, _, rfl⟩ := h
      exact ⟨rfl, rfl, rfl, rfl, [], by simp, by simp⟩
    · obtain ⟨hm, hs, hn, hb, added, hc, hall⟩ := ih _ _ _ _ _ h
      refine ⟨hm, hs, hn, hb, Call.setCurrent args.readInt.1 true :: added, ?_, ?_⟩
      · rw [hc]; simp [ClipboardServer.call]
      · intro x hx
        rcases List.mem_cons.mp hx with hx | hx
        · exact ⟨_, _, hx⟩
        · exact hall x hx

theorem addLoop_frame (fuel : Nat) :
    ∀ (args a : Arguments) (s s' : ClipboardServer), addLoop fuel args s = some (a, s') →
      s'.m_monitor = s.m_monitor ∧ s'.m_socket = s.m_socket ∧ s'.nextId = s.nextId
      ∧ s'.browser = s.browser ∧ ∃ added, s'.calls = s.calls ++ added := by
  induction fuel with
  | zero => intro args a s s' h; simp [addLoop] at h
  | succ fuel ih =>
    intro args a s s' h
    rw [addLoop] at h
    simp only [] at h
    split_ifs at h with h1
    · simp only [Option.some.injEq, Prod.mk.injEq] at h
      obtain ⟨_, rfl⟩ := h
      exact ⟨rfl, rfl, rfl, rfl, [], by simp⟩
    · obtain ⟨hm, hs, hn, hb, added, hc⟩ := ih _ _ _ _ h
      exact ⟨hm, hs, hn, hb, Call.addText args.next.1 :: added, by
        rw [hc]; simp [ClipboardServer.call]⟩

theorem effect_rejected (s : ClipboardServer) (tokens : List Str) (response : Str) :
    s.m_monitor = s.m_monitor ∧ s.m_socket = s.m_socket ∧ s.nextId = s.nextId
    ∧ (s.browser = s.browser
        ∨ (s.isMonitoring = true ∧ false = true
            ∧ s.browser = { s.browser with autoUpdate := true }))
    ∧ ∃ added, s.calls = s.calls ++ added
      ∧ (false = false → response = response ∧ s.browser = s.browser
          ∧ (∀ x ∈ added, ∃ r e, x = Call.setCurrent r e)
          ∧ (added ≠ [] → ∃ name rest, tokens = name :: rest
              ∧ (commandOf name = Command.Cmd_Action ∨ commandOf name = Command.Cmd_Edit
                  ∨ commandOf name = Command.Cmd_Remove))) :=
  ⟨rfl, rfl, rfl, Or.inl rfl, [], by simp, fun _ => ⟨rfl, rfl, by simp, by simp⟩⟩

theorem effect_accepted (s s' : ClipboardServer) (tokens : List Str) (response resp : Str)
    (hm : s'.m_monitor = s.m_monitor) (hs : s'.m_socket = s.m_socket)
    (hn : s'.nextId = s.nextId)
    (hb : s'.browser = s.browser
        ∨ (s.isMonitoring = true ∧ s'.browser = { s.browser with autoUpdate := true }))
    (hc : ∃ added, s'.calls = s.calls ++ added) :
    s'.m_monitor = s.m_monitor ∧ s'.m_socket = s.m_socket ∧ s'.nextId = s.nextId
    ∧ (s'.browser = s.browser
        ∨ (s.isMonitoring = true ∧ true = true
            ∧ s'.browser = { s.browser with autoUpdate := true }))
    ∧ ∃ added, s'.calls = s.calls ++ added
      ∧ (true = false → resp = response ∧ s'.browser = s.browser
          ∧ (∀ x ∈ added, ∃ r e, x = Call.setCurrent r e)
          ∧ (added ≠ [] → ∃ name rest, tokens = name :: rest
              ∧ (commandOf name = Command.Cmd_Action ∨ commandOf name = Command.Cmd_Edit
                  ∨ commandOf name = Command.Cmd_Remove))) := by
  obtain ⟨added, hadd⟩ := hc
  refine ⟨hm, hs, hn, ?_, added, hadd, fun h => by simp at h⟩
  rcases hb with hb | ⟨h1, h2⟩
  · exact Or.inl hb
  · exact Or.inr ⟨h1, rfl, h2⟩

theorem effect_call (s : ClipboardServer) (tokens : List Str) (response resp : Str)
    (c : Call) :
    (s.call c).m_monitor = s.m_monitor ∧ (s.call c).m_socket = s.m_socket
    ∧ (s.call c).nextId = s.nextId
    ∧ ((s.call c).browser = s.browser
        ∨ (s.isMonitoring = true ∧ true = true
            ∧ (s.call c).browser = { s.browser with autoUpdate := true }))
    ∧ ∃ added, (s.call c).calls = s.calls ++ added
      ∧ (true = false → resp = response ∧ (s.call c).browser = s.browser
          ∧ (∀ x ∈ added, ∃ r e, x = Call.setCurrent r e)
          ∧ (added ≠ [] → ∃ name rest, tokens = name :: rest
              ∧ (commandOf name = Command.Cmd_Action ∨ commandOf name = Command.Cmd_Edit
                  ∨ commandOf name = Command.Cmd_Remove))) :=
  effect_accepted s (s.call c) tokens response resp rfl rfl rfl (Or.inl rfl) ⟨[c], rfl⟩

theorem doWrite_effect (noupdate : Bool) (s : ClipboardServer) (args : Arguments)
    (tokens : List Str) (response : Str) (ok : Bool) (resp : Str) (s' : ClipboardServer)
    (h : doWrite noupdate s args response = some (ok, resp, s')) :
    s'.m_monitor = s.m_monitor ∧ s'.m_socket = s.m_socket ∧ s'.nextId = s.nextId
    ∧ (s'.browser = s.browser
        ∨ (s.isMonitoring = true ∧ ok = true
            ∧ s'.browser = { s.browser with autoUpdate := true }))
    ∧ ∃ added, s'.calls = s.calls ++ added
      ∧ (ok = false → resp = response ∧ s'.browser = s.browser
          ∧ (∀ x ∈ added, ∃ r e, x = Call.setCurrent r e)
          ∧ (added ≠ [] → ∃ name rest, tokens = name :: rest
              ∧ (commandOf name = Command.Cmd_Action ∨ commandOf name = Command.Cmd_Edit
                  ∨ commandOf name = Command.Cmd_Remove))) := by
  unfold doWrite at h
  split at h
  · simp at h
  · simp only [Option.some.injEq, Prod.mk.injEq] at h
    obtain ⟨rfl, rfl, rfl⟩ := h
    exact effect_rejected s tokens response
  · have hmon : ∀ (x : ClipboardServer) (c : Call), (x.call c).isMonitoring = x.isMonitoring :=
      fun _ _ => rfl
    have hmon' : ∀ (x : ClipboardServer) (e : Bool),
        (x.setAutoUpdate e).isMonitoring = x.isMonitoring := fun _ _ => rfl
    cases noupdate
    · simp only [Bool.false_and, Bool.false_eq_true, if_false, Option.some.injEq,
        Prod.mk.injEq] at h
      obtain ⟨rfl, rfl, rfl⟩ := h
      exact effect_call s tokens response response _
    · rename_i data _ _
      by_cases hm : s.isMonitoring = true
      · simp only [Bool.true_and, hm, hmon, hmon', if_true, Option.some.injEq,
          Prod.mk.injEq] at h
        obtain ⟨rfl, rfl, rfl⟩ := h
        refine effect_accepted s _ tokens response response rfl rfl rfl (Or.inr ⟨hm, ?_⟩)
          ⟨[Call.setAutoUpdate false, Call.addData data, Call.setAutoUpdate true], ?_⟩
        · simp [ClipboardServer.call, ClipboardServer.setAutoUpdate]
        · simp [ClipboardServer.call, ClipboardServer.setAutoUpdate]
      · have hm' : s.isMonitoring = false := by simpa using hm
        simp only [Bool.true_and, hm', hmon, Bool.false_eq_true, if_false, Option.some.injEq,
          Prod.mk.injEq] at h
        obtain ⟨rfl, rfl, rfl⟩ := h
        exact effect_call s tokens response response _

theorem effect_selection_rejected (s s1 : ClipboardServer) (row : Int) (name : Str)
    (rest : List Str) (response : Str)
    (hcmd : commandOf name = Command.Cmd_Action ∨ commandOf name = Command.Cmd_Edit
      ∨ commandOf name = Command.Cmd_Remove)
    (hf : s1.m_monitor = (s.call (Call.setCurrent row false)).m_monitor
      ∧ s1.m_socket = (s.call (Call.setCurrent row false)).m_socket
      ∧ s1.nextId = (s.call (Call.setCurrent row false)).nextId
      ∧ s1.browser = (s.call (Call.setCurrent row false)).browser
      ∧ ∃ added, s1.calls = (s.call (Call.setCurrent row false)).calls ++ added
        ∧ ∀ x ∈ added, ∃ r e, x = Call.setCurrent r e) :
    s1.m_monitor = s.m_monitor ∧ s1.m_socket = s.m_socket ∧ s1.nextId = s.nextId
    ∧ (s1.browser = s.browser
        ∨ (s.isMonitoring = true ∧ false = true
            ∧ s1.browser = { s.browser with autoUpdate := true }))
    ∧ ∃ added, s1.calls = s.calls ++ added
      ∧ (false = false → response = response ∧ s1.browser = s.browser
          ∧ (∀ x ∈ added, ∃ r e, x = Call.setCurrent r e)
          ∧ (added ≠ [] → ∃ name' rest', name :: rest = name' :: rest'
              ∧ (commandOf name' = Command.Cmd_Action ∨ commandOf name' = Command.Cmd_Edit
                  ∨ commandOf name' = Command.Cmd_Remove))) := by
  obtain ⟨hm, hs, hn, hb, added, hc, hall⟩ := hf
  refine ⟨hm, hs, hn, Or.inl hb, Call.setCurrent row false :: added, ?_, fun _ =>
    ⟨rfl, hb, ?_, fun _ => ⟨name, rest, rfl, hcmd⟩⟩⟩
  · rw [hc]; simp [ClipboardServer.call]
  · intro x hx
    rcases List.mem_cons.mp hx with hx | hx
    · exact ⟨_, _, hx⟩
    · exact hall x hx

theorem effect_selection_accepted (s s1 : ClipboardServer) (row : Int) (tokens : List Str)
    (response resp : Str) (c : Call)
    (hf : s1.m_monitor = (s.call (Call.setCurrent row false)).m_monitor
      ∧ s1.m_socket = (s.call (Call.setCurrent row false)).m_socket
      ∧ s1.nextId = (s.call (Call.setCurrent row false)).nextId
      ∧ s1.browser = (s.call (Call.setCurrent row false)).browser
      ∧ ∃ added, s1.calls = (s.call (Call.setCurrent row false)).calls ++ added
        ∧ ∀ x ∈ added, ∃ r e, x = Call.setCurrent r e) :
    (s1.call c).m_monitor = s.m_monitor ∧ (s1.call c).m_socket = s.m_socket
    ∧ (s1.call c).nextId = s.nextId
    ∧ ((s1.call c).browser = s.browser
        ∨ (s.isMonitoring = true ∧ true = true
            ∧ (s1.call c).browser = { s.browser with autoUpdate := true }))
    ∧ ∃ added, (s1.call c).calls = s.calls ++ added
      ∧ (true = false → resp = response ∧ (s1.call c).browser = s.browser
          ∧ (∀ x ∈ added, ∃ r e, x = Call.setCurrent r e)
          ∧ (added ≠ [] → ∃ name rest, tokens = name :: rest
              ∧ (commandOf name = Command.Cmd_Action ∨ commandOf name = Command.Cmd_Edit
                  ∨ commandOf name = Command.Cmd_Remove))) := by
  obtain ⟨hm, hs, hn, hb, added, hc, _⟩ := hf
  exact effect_accepted s (s1.call c) tokens response resp hm hs hn (Or.inl hb)
    ⟨Call.setCurrent row false :: added ++ [c], by
      simp only [ClipboardServer.call] at hc ⊢
      rw [hc]; simp⟩

theorem doCommand_effect (s : ClipboardServer) (tokens : List Str) (response : Str)
    (ok : Bool) (resp : Str) (s' : ClipboardServer)
    (h : doCommand s (Arguments.ofTokens tokens) response = some (ok, resp, s')) :
    s'.m_monitor = s.m_monitor ∧ s'.m_socket = s.m_socket ∧ s'.nextId = s.nextId
    ∧ (s'.browser = s.browser
        ∨ (s.isMonitoring = true ∧ ok = true
            ∧ s'.browser = { s.browser with autoUpdate := true }))
    ∧ ∃ added, s'.calls = s.calls ++ added
      ∧ (ok = false → resp = response ∧ s'.browser = s.browser
          ∧ (∀ x ∈ added, ∃ r e, x = Call.setCurrent r e)
          ∧ (added ≠ [] → ∃ name rest, tokens = name :: rest
              ∧ (commandOf name = Command.Cmd_Action ∨ commandOf name = Command.Cmd_Edit
                  ∨ commandOf name = Command.Cmd_Remove))) := by
  cases tokens with
  | nil =>
    simp [doCommand, Arguments.ofTokens, Arguments.next] at h
    obtain ⟨rfl, rfl, rfl⟩ := h
    exact effect_rejected s [] response
  | cons name rest =>
    simp only [doCommand, Arguments.ofTokens, Arguments.next, Bool.false_eq_true, if_false] at h
    cases hc : commandOf name with
    | Cmd_Unknown =>
      simp only [hc, Option.some.injEq, Prod.mk.injEq] at h
      obtain ⟨rfl, rfl, rfl⟩ := h
      exact effect_rejected s _ response
    | Cmd_Toggle =>
      simp only [hc] at h
      split_ifs at h <;> simp only [Option.some.injEq, Prod.mk.injEq] at h <;>
        obtain ⟨rfl, rfl, rfl⟩ := h
      · exact effect_rejected s _ response
      · exact effect_call s _ response response _
    | Cmd_Exit =>
      simp only [hc] at h
      split_ifs at h <;> simp only [Option.some.injEq, Prod.mk.injEq] at h <;>
        obtain ⟨rfl, rfl, rfl⟩ := h
      · exact effect_rejected s _ response
      · exact effect_call s _ response _ _
    | Cmd_Menu =>
      simp only [hc] at h
      split_ifs at h <;> simp only [Option.some.injEq, Prod.mk.injEq] at h <;>
        obtain ⟨rfl, rfl, rfl⟩ := h
      · exact effect_rejected s _ response
      · exact effect_call s _ response response _
    | Cmd_Select =>
      simp only [hc] at h
      split_ifs at h <;> simp only [Option.some.injEq, Prod.mk.injEq] at h <;>
        obtain ⟨rfl, rfl, rfl⟩ := h
      · exact effect_rejected s _ response
      · exact effect_call s _ response response _
    | Cmd_Length =>
      simp only [hc] at h
      split_ifs at h <;> simp only [Option.some.injEq, Prod.mk.injEq] at h <;>
        obtain ⟨rfl, rfl, rfl⟩ := h
      · exact effect_accepted s s _ response _ rfl rfl rfl (Or.inl rfl) ⟨[], by simp⟩
      · exact effect_rejected s _ response
    | Cmd_List =>
      simp only [hc] at h
      split_ifs at h
      · simp only [Option.some.injEq, Prod.mk.injEq] at h
        obtain ⟨rfl, rfl, rfl⟩ := h
        exact effect_accepted s s _ response _ rfl rfl rfl (Or.inl rfl) ⟨[], by simp⟩
      · split at h
        · simp at h
        · simp only [Option.some.injEq, Prod.mk.injEq] at h
          obtain ⟨rfl, rfl, rfl⟩ := h
          exact effect_accepted s s _ response _ rfl rfl rfl (Or.inl rfl) ⟨[], by simp⟩
    | Cmd_Read =>
      simp only [hc] at h
      split_ifs at h
      · simp only [Option.some.injEq, Prod.mk.injEq] at h
        obtain ⟨rfl, rfl, rfl⟩ := h
        exact effect_accepted s s _ response _ rfl rfl rfl (Or.inl rfl) ⟨[], by simp⟩
      · split at h
        · simp at h
        · simp only [Option.some.injEq, Prod.mk.injEq] at h
          obtain ⟨rfl, rfl, rfl⟩ := h
          exact effect_accepted s s _ response _ rfl rfl rfl (Or.inl rfl) ⟨[], by simp⟩
    | Cmd_Action =>
      simp only [hc] at h
      split at h
      · simp at h
      · rename_i a s1 heq
        have hf := actionRows_frame _ _ _ _ _ heq
        split_ifs at h <;> simp only [Option.some.injEq, Prod.mk.injEq] at h <;>
          obtain ⟨rfl, rfl, rfl⟩ := h
        · exact effect_selection_accepted s s1 _ _ response response _ hf
        · exact effect_selection_rejected s s1 _ name rest response (Or.inl hc) hf
        · exact effect_selection_accepted s s1 _ _ response response _ hf
    | Cmd_Add =>
      simp only [hc] at h
      split_ifs at h with h1 hmon
      · simp only [Option.some.injEq, Prod.mk.injEq] at h
        obtain ⟨rfl, rfl, rfl⟩ := h
        exact effect_rejected s _ response
      · split at h
        · simp at h
        · rename_i a s2 heq
          obtain ⟨hm, hs, hn, hb, added, hadd⟩ := addLoop_frame _ _ _ _ _ heq
          simp only [Option.some.injEq, Prod.mk.injEq] at h
          obtain ⟨rfl, rfl, rfl⟩ := h
          have h2 : s2.isMonitoring = true := by
            simp only [ClipboardServer.isMonitoring] at hmon ⊢
            rw [hm]; exact hmon
          rw [if_pos h2]
          refine effect_accepted s _ _ response response hm hs hn (Or.inr ⟨hmon, ?_⟩)
            ⟨Call.setAutoUpdate false :: added
              ++ [Call.setAutoUpdate true, Call.updateClipboard], ?_⟩
          · simp [ClipboardServer.call, ClipboardServer.setAutoUpdate, hb]
          · simp [ClipboardServer.call, ClipboardServer.setAutoUpdate, hadd]
      · split at h
        · simp at h
        · rename_i a s2 heq
          obtain ⟨hm, hs, hn, hb, added, hadd⟩ := addLoop_frame _ _ _ _ _ heq
          simp only [Option.some.injEq, Prod.mk.injEq] at h
          obtain ⟨rfl, rfl, rfl⟩ := h
          have h2 : ¬ s2.isMonitoring = true := by
            simp only [ClipboardServer.isMonitoring] at hmon ⊢
            rw [hm]; exact hmon
          rw [if_neg h2]
          exact effect_accepted s _ _ response response hm hs hn (Or.inl hb)
            ⟨added ++ [Call.updateClipboard], by simp [ClipboardServer.call, hadd]⟩
    | Cmd_Write =>
      simp only [hc] at h
      exact doWrite_effect _ _ _ _ _ _ _ _ h
    | Cmd_WriteNoUpdate =>
      simp only [hc] at h
      exact doWrite_effect _ _ _ _ _ _ _ _ h
    | Cmd_Edit =>
      simp only [hc] at h
      split at h
      · simp at h
      · rename_i a s1 heq
        have hf := selectRows_frame _ _ _ _ _ _ heq
        simp only [Option.some.injEq, Prod.mk.injEq] at h
        obtain ⟨rfl, rfl, rfl⟩ := h
        exact effect_selection_rejected s s1 _ name rest response (Or.inr (Or.inl hc)) hf
      · rename_i a s1 heq
        have hf := selectRows_frame _ _ _ _ _ _ heq
        simp only [Option.some.injEq, Prod.mk.injEq] at h
        obtain ⟨rfl, rfl, rfl⟩ := h
        exact effect_selection_accepted s s1 _ _ response response _ hf
    | Cmd_Remove =>
      simp only [hc] at h
      split at h
      · simp at h
      · rename_i a s1 heq
        have hf := selectRows_frame _ _ _ _ _ _ heq
        simp only [Option.some.injEq, Prod.mk.injEq] at h
        obtain ⟨rfl, rfl, rfl⟩ := h
        exact effect_selection_rejected s s1 _ name rest response (Or.inr (Or.inr hc)) hf
      · rename_i a s1 heq
        have hf := selectRows_frame _ _ _ _ _ _ heq
        simp only [Option.some.injEq, Prod.mk.injEq] at h
        obtain ⟨rfl, rfl, rfl⟩ := h
        exact effect_selection_accepted s s1 _ _ response response _ hf

/-- C19: whenever `doCommand` returns false, the response buffer is the one
passed in, the browser (auto-update flag included), the process handle, the
connection and the object counter are unchanged, and every call issued is a
`setCurrent`; so none of `add`, `remove`, `moveToClipboard`, `openEditor`,
`updateClipboard`, `setAutoUpdate`, `toggleVisible`, `showMenu`,
`openActionDialog`, `action` or `exit` was called.  Calls are issued at all
only by `action`, `edit` and `remove`. -/
theorem rejection_effect_free (s : ClipboardServer) (tokens : List Str) (response resp : Str)
    (s' : ClipboardServer)
    (h : doCommand s (Arguments.ofTokens tokens) response = some (false, resp, s')) :
    resp = response
    ∧ s'.browser = s.browser ∧ s'.m_monitor = s.m_monitor ∧ s'.m_socket = s.m_socket
    ∧ s'.nextId = s.nextId
    ∧ ∃ added, s'.calls = s.calls ++ added
      ∧ (∀ x ∈ added, ∃ r e, x = Call.setCurrent r e)
      ∧ (added ≠ [] → ∃ name rest, tokens = name :: rest
          ∧ (commandOf name = Command.Cmd_Action ∨ commandOf name = Command.Cmd_Edit
              ∨ commandOf name = Command.Cmd_Remove)) := by
  obtain ⟨hm, hs, hn, _, added, hc, hrej⟩ := doCommand_effect s tokens response false resp s' h
  obtain ⟨hr, hb, hall, hcmd⟩ := hrej rfl
  exact ⟨hr, hb, hm, hs, hn, added, hc, hall, hcmd⟩

/-- Witness for C19: `action cmd a b c` is rejected after selecting row 0. -/
theorem rejection_effect_free_witness :
    doCommand (sampleServer fiveItems)
        (Arguments.ofTokens ["action".toList, "cmd".toList, "a".toList, "b".toList, "c".toList])
        []
      = some (false, [], { sampleServer fiveItems with calls := [Call.setCurrent 0 false] })
    ∧ ∃ added, ({ sampleServer fiveItems with calls := [Call.setCurrent 0 false] }
          : ClipboardServer).calls = (sampleServer fiveItems).calls ++ added
        ∧ ∀ x ∈ added, ∃ r e, x = Call.setCurrent r e :=
  ⟨rfl,
    Exists.imp (fun _ h => ⟨h.1, h.2.1⟩)
      (rejection_effect_free (sampleServer fiveItems)
        ["action".toList, "cmd".toList, "a".toList, "b".toList, "c".toList] [] []
        { sampleServer fiveItems with calls := [Call.setCurrent 0 false] } rfl).2.2.2.2.2⟩

/-! ## The auto-update invariant -/

theorem invariant_start (s : ClipboardServer) : autoUpdateInvariant (startMonitoring true s) := by
  cases h : s.m_monitor with
  | none =>
    simp [autoUpdateInvariant, startMonitoring, h, ClipboardServer.setAutoUpdate,
      ClipboardServer.call, ClipboardServer.isMonitoring]
  | some p =>
    simp [autoUpdateInvariant, startMonitoring, h, ClipboardServer.setAutoUpdate,
      ClipboardServer.isMonitoring]

theorem invariant_stop (w : Worker) (s : ClipboardServer) :
    autoUpdateInvariant (stopMonitoring w s) := by
  have h1 := stopMonitoring_m_monitor w s
  have h2 : (stopMonitoring w s).browser.autoUpdate = false := by
    simp [stopMonitoring, ClipboardServer.setAutoUpdate]
  simp [autoUpdateInvariant, ClipboardServer.isMonitoring, h1, h2]

theorem invariant_command (s : ClipboardServer) (tokens : List Str) (response : Str)
    (ok : Bool) (resp : Str) (s' : ClipboardServer) (hinv : autoUpdateInvariant s)
    (h : doCommand s (Arguments.ofTokens tokens) response = some (ok, resp, s')) :
    autoUpdateInvariant s' ∧ s'.browser.autoUpdate = s.browser.autoUpdate
      ∧ s'.m_monitor = s.m_monitor := by
  obtain ⟨hm, _, _, hb, _⟩ := doCommand_effect s tokens response ok resp s' h
  have hmon : s'.isMonitoring = s.isMonitoring := by
    simp only [ClipboardServer.isMonitoring, hm]
  simp only [autoUpdateInvariant] at hinv ⊢
  rcases hb with hb | ⟨h1, _, hb⟩
  · rw [hb, hmon]
    exact ⟨hinv, rfl, hm⟩
  · rw [hb, hmon, hinv, h1]
    exact ⟨rfl, rfl, hm⟩

theorem invariant_run (op : Operation) (s : ClipboardServer) (hinv : autoUpdateInvariant s)
    (hop : op.startsInTime = true) : autoUpdateInvariant (op.run s) := by
  cases op with
  | stop w => exact invariant_stop w s
  | start started =>
    simp only [Operation.startsInTime] at hop
    subst hop
    exact invariant_start s
  | stateChanged newState stderrText w started =>
    simp only [Operation.startsInTime] at hop
    subst hop
    cases newState with
    | NotRunning => exact invariant_start _
    | Starting => exact hinv
    | Running => exact hinv
  | settingsChanged w started =>
    simp only [Operation.startsInTime] at hop
    subst hop
    simp only [Operation.run, loadSettings]
    split_ifs
    · exact invariant_start _
    · exact hinv
  | readFailed w started =>
    simp only [Operation.startsInTime] at hop
    subst hop
    exact invariant_start _
  | command tokens response =>
    simp only [Operation.run]
    cases h : doCommand s (Arguments.ofTokens tokens) response with
    | none => exact hinv
    | some r =>
      obtain ⟨ok, resp, s'⟩ := r
      exact (invariant_command s tokens response ok resp s' hinv h).1

/-- What does hold of the auto-update invariant: a successful
`startMonitoring` establishes it, every sequence of top-level operations in
which no start times out keeps it, and under it every `doCommand` leaves the
flag and the handle as they were. -/
theorem invariant_kept_in_time (s : ClipboardServer) (ops : List Operation) :
    autoUpdateInvariant (startMonitoring true s)
    ∧ ((∀ op ∈ ops, op.startsInTime = true) → autoUpdateInvariant s →
        autoUpdateInvariant (ops.foldl (fun x op => op.run x) s))
    ∧ (autoUpdateInvariant s → ∀ tokens response ok resp s',
        doCommand s (Arguments.ofTokens tokens) response = some (ok, resp, s') →
        s'.browser.autoUpdate = s.browser.autoUpdate ∧ s'.m_monitor = s.m_monitor) := by
  refine ⟨invariant_start s, ?_, ?_⟩
  · intro hall hinv
    induction ops generalizing s with
    | nil => exact hinv
    | cons op ops ih =>
      exact ih (op.run s) (fun o ho => hall o (List.mem_cons_of_mem _ ho))
        (invariant_run op s hinv (hall op (List.mem_cons_self _ _)))
  · intro hinv tokens response ok resp s' h
    exact (invariant_command s tokens response ok resp s' hinv h).2

/-- C20, evaluated on the code: from the state after a successful
`startMonitoring` of the constructor, in which the invariant holds, a
configuration change whose new worker does not start in time ends with
auto-update off while `m_monitor` holds the handle `3`, which
`startMonitoring` has deleted: the flag is off although a handle is held.
The same happens for a crash notification and for a failed frame read whose
restart times out. -/
theorem restart_timeout_breaks_invariant :
    autoUpdateInvariant (startMonitoring true (idleServer fiveItems))
    ∧ (loadSettings stubbornWorker false
        (startMonitoring true (idleServer fiveItems))).m_monitor = some 3
    ∧ (loadSettings stubbornWorker false
        (startMonitoring true (idleServer fiveItems))).isMonitoring = true
    ∧ (loadSettings stubbornWorker false
        (startMonitoring true (idleServer fiveItems))).browser.autoUpdate = false
    ∧ Call.processDelete 3 ∈ (loadSettings stubbornWorker false
        (startMonitoring true (idleServer fiveItems))).calls
    ∧ ¬ autoUpdateInvariant ((Operation.settingsChanged stubbornWorker false).run
        (startMonitoring true (idleServer fiveItems)))
    ∧ ¬ autoUpdateInvariant
        ((Operation.stateChanged ProcessState.NotRunning "oops".toList crashedWorker false).run
          (startMonitoring true (idleServer fiveItems)))
    ∧ ¬ autoUpdateInvariant ((Operation.readFailed stubbornWorker false).run
        (startMonitoring true (idleServer fiveItems))) :=
  ⟨rfl, rfl, rfl, rfl, by decide,
    fun h => Bool.noConfusion h, fun h => Bool.noConfusion h, fun h => Bool.noConfusion h⟩

end CopyQ
